import Mathlib

/-!
# MQTT client: shallow embedding of `client.go`

Byte slices are lists of naturals below 256, Go's `int` and `uint` are naturals
(every length in the program is far below 2^63, so no operation wraps), and the
conversion `byte(x)` is `x % 256`.
-/

namespace Mqtt

/-- A byte slice (or a Go string, which is its byte sequence). -/
abbrev Bytes := List Nat

/-- Go conversion `byte(x)` of an integer. -/
def byte (x : Nat) : Nat := x % 256

/-- Error values of the client. `other` stands for the errors of the collaborators
(persistence, transport), told apart by a code. -/
inductive Error where
  /-- Any `fmt.Errorf("%w: ...", errProtoReset)`. -/
  | errProtoReset
  /-- Any `fmt.Errorf("%w: ...", errPacketID)`; `errPacketID` wraps `errProtoReset`. -/
  | errPacketID
  | ErrClosed
  | errPacketMax
  /-- The error of `stringCheck`. -/
  | errString
  | EOF
  | ErrUnexpectedEOF
  | other (code : Nat)
  /-- The `fmt.Errorf` of `Subscribe` for more return codes than topic filters. -/
  | subscribeCount (got want : Nat)
  /-- The `fmt.Errorf` of `Subscribe` that prints the indices of the failed filters. -/
  | subscribeFailures (indices : List Nat)
  /-- The `fmt.Errorf` of `connect` for a wrong head, remaining length or flags
  byte of the reply; `field` is 0, 1 or 2 and `got` the byte read. -/
  | connectAck (field got : Nat)
  /-- A `connectReturn` other than `accepted`. -/
  | connectReturn (code : Nat)
  /-- A `net.Error` of a read whose `Temporary` method answers true. -/
  | temporary
  deriving DecidableEq, Repr

/-- Test `errors.Is(err, errProtoReset)`. -/
def Error.isProtoReset : Error → Bool
  | .errProtoReset => true
  | .errPacketID => true
  | _ => false

/-! ## Remaining length -/

/-- The size loop of `publish`, `pubmsg`, `Subscribe` and `Unsubscribe`:
`for ; size > 127; size >>= 7 { buf = append(buf, byte(size|128)) }` followed by
`buf = append(buf, byte(size))`. -/
def appendSize (buf : Bytes) (size : Nat) : Bytes :=
  if 127 < size then appendSize (buf ++ [byte (size ||| 128)]) (size >>> 7)
  else buf ++ [byte size]
termination_by size
decreasing_by
  simp only [Nat.shiftRight_eq_div_pow]
  omega

/-- One step of a `bufio.Reader` over the connection: a byte, or a temporary
network error (after which the read is tried again). -/
inductive ReadItem where
  | data (b : Nat)
  | temporary
  deriving DecidableEq, Repr

/-- A `bufio.Reader`: what the coming reads deliver, and the error that every read
reports once the stream is used up (`io.EOF` or a transport error). -/
structure Reader where
  items : List ReadItem
  endErr : Error
  deriving DecidableEq, Repr

/-- The function `unexpectEOF`. -/
def unexpectEOF (err : Error) : Error :=
  match err with
  | .EOF => .ErrUnexpectedEOF
  | e => e

/-- The method `Client.readByte`: temporary errors are slept over and retried. -/
def readByteItems (endErr : Error) : List ReadItem → Except Error Nat × Reader
  | [] => (.error endErr, ⟨[], endErr⟩)
  | .data b :: rest => (.ok b, ⟨rest, endErr⟩)
  | .temporary :: rest => readByteItems endErr rest

/-- The method `Client.readByte`. -/
def readByte (r : Reader) : Except Error Nat × Reader :=
  readByteItems r.endErr r.items

/-- The loop of `Client.readRemainingLength` from iteration `4 - fuel` on, with the
loop variables `l` and `shift`. -/
def readRemainingLengthLoop : Nat → Nat → Nat → Reader → Except Error Nat × Reader
  | 0, _, _, r => (.error .errProtoReset, r)
  | fuel + 1, l, shift, r =>
    match readByte r with
    | (.error err, r1) => (.error (unexpectEOF err), r1)
    | (.ok b, r1) =>
      let l1 := l ||| ((b &&& 127) <<< shift)
      if b < 0x80 then (.ok l1, r1)
      else readRemainingLengthLoop fuel l1 (shift + 7) r1

/-- The method `Client.readRemainingLength`. -/
def readRemainingLength (r : Reader) : Except Error Nat × Reader :=
  readRemainingLengthLoop 4 0 0 r

/-- A reader over plain bytes. -/
def Reader.ofBytes (p : Bytes) (endErr : Error) : Reader :=
  ⟨p.map ReadItem.data, endErr⟩

/-! ## Constants

The constants below are declared outside `client.go`. -/

/-- Modelled from the spec: the control-type nibble of PUBLISH is 3 (the source
file with this constant is missing). -/
def pubMsg : Nat := 3
/-- Modelled from the spec: control-type nibble of CONNECT. -/
def connReq : Nat := 1
/-- Modelled from the spec: control-type nibble of CONNACK. -/
def connAck : Nat := 2
/-- Modelled from the spec: control-type nibble of PUBACK. -/
def pubAck : Nat := 4
/-- Modelled from the spec: control-type nibble of PUBREC. -/
def pubReceived : Nat := 5
/-- Modelled from the spec: control-type nibble of PUBREL. -/
def pubRelease : Nat := 6
/-- Modelled from the spec: control-type nibble of PUBCOMP. -/
def pubComplete : Nat := 7
/-- Modelled from the spec: control-type nibble of SUBSCRIBE. -/
def subReq : Nat := 8
/-- Modelled from the spec: control-type nibble of SUBACK. -/
def subAck : Nat := 9
/-- Modelled from the spec: control-type nibble of UNSUBSCRIBE. -/
def unsubReq : Nat := 10
/-- Modelled from the spec: control-type nibble of UNSUBACK. -/
def unsubAck : Nat := 11
/-- Modelled from the spec: control-type nibble of PINGREQ. -/
def ping : Nat := 12
/-- Modelled from the spec: control-type nibble of PINGRESP. -/
def pong : Nat := 13
/-- Modelled from the spec: control-type nibble of DISCONNECT. -/
def disconn : Nat := 14

/-- Modelled from the spec: QoS 0. -/
def AtMostOnce : Nat := 0
/-- Modelled from the spec: QoS 1. -/
def AtLeastOnce : Nat := 1
/-- Modelled from the spec: QoS 2. -/
def ExactlyOnce : Nat := 2

/-- Modelled from the spec: persistence keys are 17-bit integers and bit 16 marks
a local (outbound) key (the declaration of `localPacketIDFlag` is missing). -/
def localPacketIDFlag : Nat := 1 <<< 16

/-- Modelled from the spec: the fixed packet identifier of subscription traffic.
`Subscribe` writes it as the bytes `0, 1` ("including subscriptionPacketID"). -/
def subscriptionPacketID : Nat := 1

/-- Modelled from the spec: the largest remaining length, 268435455 (the
declaration of `packetMax` is missing). -/
def packetMax : Nat := 268435455

/-- Modelled from the spec: `stringCheck` rejects a string that contains U+0000 or
whose encoded length exceeds 65535 (the function is missing from the sources). -/
def stringCheck (s : Bytes) : Option Error :=
  if 65535 < s.length ∨ 0 ∈ s then some .errString else none

/-! ## Collaborators -/

/-- The interface `Persistence`, over the state `σ` of the world outside the client.
`Load` gives `([]byte, error)`: `.ok none` is the nil slice. -/
structure Persistence (σ : Type) where
  Store : Nat → List Bytes → σ → Option Error × σ
  Load : Nat → σ → Except Error (Option Bytes) × σ
  Delete : Nat → σ → Option Error × σ

/-- The part of `ClientConfig` that the embedded methods read. `Receive` is the
callback for inbound messages. -/
structure Client (σ : Type) where
  Receive : Bytes → Bytes → σ → Bool × σ
  Persistence : Persistence σ
  InSizeLimit : Nat

/-- What one call of `conn.Write` (or of `Buffers.WriteTo`) does: it accepts all
bytes, or it fails after `n` bytes with an error that is a temporary `net.Error`
or not; `closed` tells whether the `closed` channel of the client is found closed
by the `select` that follows the failure. -/
inductive WriteResp where
  | ok
  | fail (n : Nat) (temporary : Bool) (code : Nat) (closed : Bool)
  deriving DecidableEq, Repr

/-- A `net.Conn` as the write side sees it: the outcomes of the coming write calls
(once they are used up every write succeeds) and whether `Close` was called. A run
in which the write attempts fail without end, on which the retry loops of `write`
and `writeBuffers` do not return, has no script. -/
structure Conn where
  script : List WriteResp
  isClosed : Bool
  deriving DecidableEq, Repr

/-- The calls the client makes on its collaborators, in the order it makes them. -/
inductive Event where
  | receive (topic message : Bytes)
  | store (key : Nat) (buffers : List Bytes)
  | load (key : Nat)
  | delete (key : Nat)
  /-- One `conn.Write(p)` or `buffers.WriteTo(conn)`: the bytes offered and the
  number of bytes the connection accepted. -/
  | connWrite (p : Bytes) (n : Nat)
  | connClose
  | atLeastOnceFreeID (id : Nat)
  | exactlyOnceReleaseID (id : Nat)
  | exactlyOnceFreeID (id : Nat)
  /-- A return code sent on the channel taken from `subscriptionAck`. -/
  | ackSend (code : Nat)
  /-- The channel taken from `subscriptionAck` is closed. -/
  | ackClose
  /-- The channel taken from `pingAck` is closed. -/
  | pingClose
  deriving DecidableEq, Repr

/-- State of a packet identifier on the exactly-once line. -/
inductive IDState where
  | sent
  | released
  deriving DecidableEq, Repr

/-- The return-code channel that `Subscribe` or `Unsubscribe` puts in the
`subscriptionAck` slot: its capacity and the number of codes it holds. -/
structure AckChan where
  cap : Nat
  held : Nat
  deriving DecidableEq, Repr

/-- The mutable part of a `Client` together with the world outside it. -/
structure State (σ : Type) where
  /-- State of the collaborators (persistence medium, application). -/
  ext : σ
  /-- The write slot `connSem`: empty or holding the current connection. -/
  connSem : Option Conn
  /-- Modelled from the spec: the in-flight QoS-1 packet identifiers. -/
  atLeastOnceLine : List Nat
  /-- Modelled from the spec: the in-flight QoS-2 packet identifiers with their state. -/
  exactlyOnceLine : List (Nat × IDState)
  subscriptionAck : Option AckChan
  /-- Whether the `pingAck` slot holds a channel. -/
  pingAck : Bool
  trace : List Event

/-- How a call ends: it returns an error value (`none` is nil), it panics on an
index or slice bound, or it waits forever on the empty write slot. -/
inductive Outcome where
  | returned (err : Option Error)
  | panicked
  | blocked
  deriving DecidableEq, Repr

variable {σ : Type}

/-- Append an event to the trace. -/
def State.log (s : State σ) (e : Event) : State σ :=
  { s with trace := s.trace ++ [e] }

/-- Call `c.Receive(topic, message)`. -/
def callReceive (c : Client σ) (s : State σ) (topic message : Bytes) : Bool × State σ :=
  let r := c.Receive topic message s.ext
  (r.1, { s with ext := r.2, trace := s.trace ++ [.receive topic message] })

/-- Call `c.Persistence.Store(key, buffers)`. -/
def callStore (c : Client σ) (s : State σ) (key : Nat) (buffers : List Bytes) :
    Option Error × State σ :=
  let r := c.Persistence.Store key buffers s.ext
  (r.1, { s with ext := r.2, trace := s.trace ++ [.store key buffers] })

/-- Call `c.Persistence.Load(key)`. -/
def callLoad (c : Client σ) (s : State σ) (key : Nat) :
    Except Error (Option Bytes) × State σ :=
  let r := c.Persistence.Load key s.ext
  (r.1, { s with ext := r.2, trace := s.trace ++ [.load key] })

/-- Call `c.Persistence.Delete(key)`. -/
def callDelete (c : Client σ) (s : State σ) (key : Nat) : Option Error × State σ :=
  let r := c.Persistence.Delete key s.ext
  (r.1, { s with ext := r.2, trace := s.trace ++ [.delete key] })

/-! ## Packet-identifier lines -/

/-- Modelled from the spec: `atLeastOnceLine.freeID` frees a live identifier and
fails if the identifier is not live (the method is missing from the sources; the
error is taken to be `errPacketID`). -/
def atLeastOnceFreeID (s : State σ) (id : Nat) : Option Error × State σ :=
  let s1 := s.log (.atLeastOnceFreeID id)
  if id ∈ s.atLeastOnceLine then
    (none, { s1 with atLeastOnceLine := s.atLeastOnceLine.erase id })
  else (some .errPacketID, s1)

/-- Modelled from the spec: `exactlyOnceLine.releaseID` moves an identifier from
SENT to RELEASED and fails otherwise (the method is missing from the sources). -/
def exactlyOnceReleaseID (s : State σ) (id : Nat) : Option Error × State σ :=
  let s1 := s.log (.exactlyOnceReleaseID id)
  if (id, IDState.sent) ∈ s.exactlyOnceLine then
    (none, { s1 with exactlyOnceLine :=
      s.exactlyOnceLine.map fun e => if e.1 = id then (id, IDState.released) else e })
  else (some .errPacketID, s1)

/-- Modelled from the spec: `exactlyOnceLine.freeID` frees an identifier in state
RELEASED and fails otherwise (the method is missing from the sources). -/
def exactlyOnceFreeID (s : State σ) (id : Nat) : Option Error × State σ :=
  let s1 := s.log (.exactlyOnceFreeID id)
  if (id, IDState.released) ∈ s.exactlyOnceLine then
    (none, { s1 with exactlyOnceLine := s.exactlyOnceLine.filter fun e => e.1 ≠ id })
  else (some .errPacketID, s1)

/-! ## Writing -/

/-- The loop of `Client.write` from a call `conn.Write(p)` on: `script` holds the
outcomes of the coming calls. The result is the error returned, the script left,
whether `conn.Close` was called, and the trace. -/
def writeAttempts (p : Bytes) : List WriteResp → List Event →
    Option Error × List WriteResp × Bool × List Event
  | [], tr => (none, [], false, tr ++ [.connWrite p p.length])
  | .ok :: rest, tr => (none, rest, false, tr ++ [.connWrite p p.length])
  | .fail n temporary code closed :: rest, tr =>
    let n := min n p.length
    let tr1 := tr ++ [.connWrite p n]
    if closed then (some .ErrClosed, rest, false, tr1)
    else if temporary then (some (.other code), rest, true, tr1 ++ [.connClose])
    else writeAttempts (p.drop n) rest tr1

/-- The method `Client.write`: the connection is taken from `connSem` (the call
waits while the slot is empty) and put back on return. -/
def write (s : State σ) (p : Bytes) : Outcome × State σ :=
  match s.connSem with
  | none => (.blocked, s)
  | some conn =>
    let r := writeAttempts p conn.script s.trace
    (.returned r.1,
      { s with connSem := some ⟨r.2.1, conn.isClosed || r.2.2.1⟩, trace := r.2.2.2 })

/-- The method `Buffers.consume` of package `net`, which `Buffers.WriteTo` applies
to its receiver with the number of bytes written. -/
def consume : List Bytes → Nat → List Bytes
  | [], _ => []
  | b :: rest, n => if n < b.length then b.drop n :: rest else consume rest (n - b.length)

/-- The inner loop of `Client.writeBuffers` that builds `todo` from `buffers` and
the count `n`. -/
def todoBuffers : List Bytes → Nat → List Bytes
  | [], _ => []
  | bytes :: rest, n =>
    if bytes.length ≤ n then todoBuffers rest (n - bytes.length)
    else bytes.drop n :: rest

/-- The loop of `Client.writeBuffers` from a call `buffers.WriteTo(conn)` on. One
`WriteTo` is one outcome of the script over the concatenation of the buffers;
`WriteTo` consumes the accepted bytes from its receiver `buffers`. -/
def writeBuffersAttempts (buffers : List Bytes) : List WriteResp → List Event →
    Option Error × List WriteResp × Bool × List Event
  | [], tr => (none, [], false, tr ++ [.connWrite buffers.flatten buffers.flatten.length])
  | .ok :: rest, tr => (none, rest, false, tr ++ [.connWrite buffers.flatten buffers.flatten.length])
  | .fail n temporary code closed :: rest, tr =>
    let n := min n buffers.flatten.length
    let tr1 := tr ++ [.connWrite buffers.flatten n]
    let buffers1 := consume buffers n
    if closed then (some .ErrClosed, rest, false, tr1)
    else if temporary then (some (.other code), rest, true, tr1 ++ [.connClose])
    else writeBuffersAttempts (todoBuffers buffers1 n) rest tr1

/-- The method `Client.writeBuffers`. -/
def writeBuffers (s : State σ) (buffers : List Bytes) : Outcome × State σ :=
  match s.connSem with
  | none => (.blocked, s)
  | some conn =>
    let r := writeBuffersAttempts buffers conn.script s.trace
    (.returned r.1,
      { s with connSem := some ⟨r.2.1, conn.isClosed || r.2.2.1⟩, trace := r.2.2.2 })

/-! ## Inbound packets -/

/-- The slice expression `p[lo:hi]`: it panics (`none`) unless `lo ≤ hi ≤ len(p)`.
Go checks `hi` against the capacity of `p`; in `inbound` an index expression
`p[hi]` follows at once and panics for every `hi ≥ len(p)`, with no effect in
between, so that the outcome is the same. -/
def slice (p : Bytes) (lo hi : Nat) : Option Bytes :=
  if lo ≤ hi ∧ hi ≤ p.length then some ((p.take hi).drop lo) else none

/-- The function `binary.BigEndian.Uint16` on a slice of at least two bytes. -/
def uint16BE (p : Bytes) : Nat :=
  (p.getD 0 0) <<< 8 ||| p.getD 1 0

/-- The record that the QoS-2 branch builds with `make` and two `copy` calls. -/
def exactlyOnceRecord (topic message : Bytes) : Bytes :=
  topic ++ [0] ++ message

/-- The `range` loop of the PUBREL branch: the bytes before and after the first
zero byte, when there is one. -/
def splitRecord : Bytes → Option (Bytes × Bytes)
  | [] => none
  | b :: rest =>
    if b = 0 then some ([], rest)
    else (splitRecord rest).map fun tm => (b :: tm.1, tm.2)

/-- The acknowledgement packet `{head, 2, byte(packetID>>8), byte(packetID)}`. -/
def ackPacket (packetType packetID : Nat) : Bytes :=
  [byte (packetType <<< 4), 2, byte (packetID >>> 8), byte packetID]

/-- The `range p[2:]` loop of the SUBACK branch: each code is sent unless the
channel is full (no receive of the subscriber is interleaved). -/
def sendCodes : List Nat → AckChan → List Event → List Event
  | [], _, tr => tr
  | code :: rest, ack, tr =>
    if ack.held < ack.cap then sendCodes rest { ack with held := ack.held + 1 } (tr ++ [.ackSend code])
    else tr

/-- The PUBLISH branch of `Client.inbound` after the packet is parsed. -/
def inboundPublish (c : Client σ) (s : State σ) (firstByte : Nat)
    (topic : Bytes) (packetID : Nat) (message : Bytes) : Outcome × State σ :=
  let qos := firstByte &&& 0b110
  if qos = AtMostOnce <<< 1 then
    let r := callReceive c s topic message
    (.returned none, r.2)
  else if qos = AtLeastOnce <<< 1 then
    let r := callReceive c s topic message
    if r.1 then
      write r.2 (ackPacket pubAck packetID)
    else (.returned none, r.2)
  else if qos = ExactlyOnce <<< 1 then
    let bytes := exactlyOnceRecord topic message
    match callStore c s packetID [bytes] with
    | (some _, s1) => (.returned none, s1)
    | (none, s1) =>
      write s1 (ackPacket pubReceived packetID)
  else (.returned (some .errProtoReset), s)

/-- The PUBREL branch of `Client.inbound`. -/
def inboundPubRelease (c : Client σ) (s : State σ) (p : Bytes) : Outcome × State σ :=
  if p.length ≠ 2 then (.returned (some .errProtoReset), s)
  else
    let packetID := uint16BE p
    let sendComplete (s1 : State σ) : Outcome × State σ :=
      write s1 (ackPacket pubComplete packetID)
    match callLoad c s packetID with
    | (.error _, s1) => (.returned none, s1)
    | (.ok none, s1) => sendComplete s1
    | (.ok (some bytes), s1) =>
      match splitRecord bytes with
      | some (topic, message) =>
        let r := callReceive c s1 topic message
        if r.1 then sendComplete (callDelete c r.2 packetID).2
        else (.returned none, r.2)
      | none => sendComplete (callDelete c s1 packetID).2

/-- The method `Client.inbound`. -/
def inbound (c : Client σ) (s : State σ) (firstByte : Nat) (p : Bytes) : Outcome × State σ :=
  let packetType := firstByte >>> 4
  if packetType = pubMsg then
    match p[0]?, p[1]? with
    | some p0, some p1 =>
      let i := p0 <<< 8 ||| p1
      match slice p 2 i with
      | none => (.panicked, s)
      | some topic =>
        match p[i]?, p[i + 1]? with
        | some b0, some b1 =>
          let packetID := b0 <<< 8 ||| b1
          let message := p.drop (i + 2)
          inboundPublish c s firstByte topic packetID message
        | _, _ => (.panicked, s)
    | _, _ => (.panicked, s)
  else if packetType = pubRelease then inboundPubRelease c s p
  else if packetType = pubAck then
    if p.length ≠ 2 then (.returned (some .errProtoReset), s)
    else
      let packetID := uint16BE p
      match atLeastOnceFreeID s packetID with
      | (some err, s1) => (.returned (some err), s1)
      | (none, s1) =>
        match callDelete c s1 packetID with
        | (some err, s2) => (.returned (some err), s2)
        | (none, s2) => (.returned none, s2)
  else if packetType = pubReceived then
    if p.length ≠ 2 then (.returned (some .errProtoReset), s)
    else
      let packetID := uint16BE p
      match exactlyOnceReleaseID s packetID with
      | (some err, s1) => (.returned (some err), s1)
      | (none, s1) =>
        let buf := ackPacket pubRelease packetID
        match callStore c s1 packetID [buf] with
        | (some err, s2) => (.returned (some err), s2)
        | (none, s2) =>
          write s2 buf
  else if packetType = pubComplete then
    if p.length ≠ 2 then (.returned (some .errProtoReset), s)
    else
      let packetID := uint16BE p
      match exactlyOnceFreeID s packetID with
      | (some err, s1) => (.returned (some err), s1)
      | (none, s1) =>
        match callDelete c s1 packetID with
        | (some err, s2) => (.returned (some err), s2)
        | (none, s2) => (.returned none, s2)
  else if packetType = subAck then
    if p.length < 3 then (.returned (some .errProtoReset), s)
    else if uint16BE p ≠ subscriptionPacketID then (.returned (some .errPacketID), s)
    else
      match callDelete c s subscriptionPacketID with
      | (some err, s1) => (.returned (some err), s1)
      | (none, s1) =>
        match s1.subscriptionAck with
        | none => (.returned none, s1)
        | some ack =>
          (.returned none,
            { s1 with subscriptionAck := none,
                      trace := sendCodes (p.drop 2) ack s1.trace ++ [.ackClose] })
  else if packetType = unsubAck then
    if p.length ≠ 2 then (.returned (some .errProtoReset), s)
    else if uint16BE p ≠ subscriptionPacketID then (.returned (some .errPacketID), s)
    else
      match callDelete c s subscriptionPacketID with
      | (some err, s1) => (.returned (some err), s1)
      | (none, s1) =>
        match s1.subscriptionAck with
        | none => (.returned none, s1)
        | some _ =>
          (.returned none, { s1 with subscriptionAck := none, trace := s1.trace ++ [.ackClose] })
  else if packetType = pong then
    if p.length ≠ 0 then (.returned (some .errProtoReset), s)
    else if s.pingAck then
      (.returned none, { s with pingAck := false, trace := s.trace ++ [.pingClose] })
    else (.returned none, s)
  else if packetType = connReq ∨ packetType = subReq ∨ packetType = unsubReq
      ∨ packetType = ping ∨ packetType = disconn then
    (.returned (some .errProtoReset), s)
  else if packetType = connAck then (.returned (some .errProtoReset), s)
  else (.returned (some .errProtoReset), s)

/-! ## Outbound publish -/

/-- The method `Client.publish`. -/
def publish (s : State σ) (topic message : Bytes) (head : Nat) : Outcome × State σ :=
  match stringCheck topic with
  | some err => (.returned (some err), s)
  | none =>
    let size := 2 + topic.length + message.length
    if packetMax < size then (.returned (some .errPacketMax), s)
    else
      let buf := appendSize [head] size ++ [byte (topic.length >>> 8), byte topic.length] ++ topic
      writeBuffers s [buf, message]

/-- The method `Client.Publish`. -/
def Publish (s : State σ) (topic message : Bytes) : Outcome × State σ :=
  publish s topic message (pubMsg <<< 4)

/-- The function `pubmsg`: the packet start, or the error. -/
def pubmsg (topic message : Bytes) (head : Nat) : Except Error Bytes :=
  match stringCheck topic with
  | some err => .error err
  | none =>
    let size := 4 + topic.length + message.length
    if packetMax < size then .error .errPacketMax
    else
      .ok (appendSize [head] size ++ [byte (topic.length >>> 8), byte topic.length] ++ topic)

/-- The method `Client.persistAndTrySend`; `packet` is `packet.buf`. -/
def persistAndTrySend (c : Client σ) (s : State σ) (packetID : Nat) (packet message : Bytes) :
    Outcome × State σ :=
  let buf := packet ++ [byte (packetID >>> 8), byte packetID]
  let buffers := [buf, message]
  let key := packetID ||| localPacketIDFlag
  match callStore c s key buffers with
  | (some err, s1) => (.returned (some err), s1)
  | (none, s1) =>
    match writeBuffers s1 buffers with
    | (.returned _, s2) => (.returned none, s2)
    | out => out

/-! ## A persistence and a client to run the code on -/

/-- Modelled from the spec: a persistence that never fails, a map from key to
bytes. `Store` writes the concatenation of the buffers under the key, `Load` gives
the stored value or none, `Delete` removes the key. -/
def mapPersistence : Persistence (List (Nat × Bytes)) where
  Store := fun key buffers m => (none, (key, buffers.flatten) :: m.filter fun e => e.1 ≠ key)
  Load := fun key m => (.ok (m.lookup key), m)
  Delete := fun key m => (none, m.filter fun e => e.1 ≠ key)

/-- A client over `mapPersistence` whose `Receive` answers `accept`. -/
def mapClient (accept : Bool) : Client (List (Nat × Bytes)) where
  Receive := fun _ _ m => (accept, m)
  Persistence := mapPersistence
  InSizeLimit := packetMax

/-- A state with an empty persistence, a connection on which every write
succeeds, and the given packet-identifier lines. -/
def freshState (atLeastOnce : List Nat) (exactlyOnce : List (Nat × IDState)) :
    State (List (Nat × Bytes)) where
  ext := []
  connSem := some ⟨[], false⟩
  atLeastOnceLine := atLeastOnce
  exactlyOnceLine := exactlyOnce
  subscriptionAck := none
  pingAck := false
  trace := []

/-- Connection events: a write or a close. -/
def Event.isConn : Event → Bool
  | .connWrite _ _ => true
  | .connClose => true
  | _ => false

/-- Calls of `Receive`. -/
def Event.isReceive : Event → Bool
  | .receive _ _ => true
  | _ => false

/-- The cases in which the PUBREL branch goes on to the PUBCOMP: `Load` succeeds and
finds no record, or a record without a zero byte, or a record on which `Receive`
answers true. -/
def pubReleaseConfirms (c : Client σ) (s : State σ) (packetID : Nat) : Bool :=
  match c.Persistence.Load packetID s.ext with
  | (.error _, _) => false
  | (.ok none, _) => true
  | (.ok (some bytes), e1) =>
    match splitRecord bytes with
    | none => true
    | some tm => (c.Receive tm.1 tm.2 e1).1

/-! ## Subscribe and Disconnect -/

/-- The loop `for size > 127 { buf = append(buf, byte(size|128)); size >>= 7 }` of
`connect`, `Subscribe` and `Unsubscribe`: the buffer and the size it leaves. -/
def sizeLoop (buf : Bytes) (size : Nat) : Bytes × Nat :=
  if 127 < size then sizeLoop (buf ++ [byte (size ||| 128)]) (size >>> 7)
  else (buf, size)
termination_by size
decreasing_by
  simp only [Nat.shiftRight_eq_div_pow]
  omega

/-- The "measure & validate" loop of `Subscribe`: the first `stringCheck` error, or
`size` plus the lengths of the filters. -/
def measureFilters : List Bytes → Nat → Except Error Nat
  | [], size => .ok size
  | f :: rest, size =>
    match stringCheck f with
    | some err => .error err
    | none => measureFilters rest (size + f.length)

/-- The loop of `Subscribe` that appends each filter with its length and the
requested QoS `ExactlyOnce`. -/
def appendFilters (buf : Bytes) : List Bytes → Bytes
  | [] => buf
  | f :: rest =>
    appendFilters (buf ++ [byte (f.length >>> 8), byte f.length] ++ f ++ [byte ExactlyOnce]) rest

/-- The packet that `Subscribe` composes for the filters and the measured `size`. -/
def subscribePacket (topicFilters : List Bytes) (size : Nat) : Bytes :=
  let r := sizeLoop [byte (subReq <<< 4)] size
  appendFilters (r.1 ++ [byte r.2, 0, 1]) topicFilters

/-- The method `Client.Subscribe` up to its wait on `returnCodes`: the outcome when
the call ends before, or `none` when the request is written and the call goes on to
wait. The send on a full `subscriptionAck` slot waits. -/
def subscribeRequest (c : Client σ) (s : State σ) (topicFilters : List Bytes) :
    Option Outcome × State σ :=
  if topicFilters.length = 0 then (some (.returned none), s)
  else
    match measureFilters topicFilters (2 + topicFilters.length * 3) with
    | .error err => (some (.returned (some err)), s)
    | .ok size =>
      if packetMax < size then (some (.returned (some .errPacketMax)), s)
      else
        let buf := subscribePacket topicFilters size
        match s.subscriptionAck with
        | some _ => (some .blocked, s)
        | none =>
          let s1 := { s with subscriptionAck := some ⟨topicFilters.length, 0⟩ }
          match callStore c s1 (subscriptionPacketID ||| localPacketIDFlag) [buf] with
          | (some err, s2) => (some (.returned (some err)), { s2 with subscriptionAck := none })
          | (none, s2) =>
            match write s2 buf with
            | (.returned none, s3) => (none, s3)
            | (.returned (some _), s3) => (some .panicked, s3)
            | (out, s3) => (some out, s3)

/-- The loop `for code := range returnCodes` of `Subscribe` with its variables `i`
and `failures`, over the codes the channel delivers until it is closed; `none` is
the panic on a code other than 0, 1, 2 and 0x80. -/
def collectCodes : List Nat → Nat → List Nat → Option (Nat × List Nat)
  | [], i, failures => some (i, failures)
  | code :: rest, i, failures =>
    if code = AtMostOnce ∨ code = AtLeastOnce ∨ code = ExactlyOnce then
      collectCodes rest (i + 1) failures
    else if code = 0x80 then collectCodes rest (i + 1) (failures ++ [i])
    else none

/-- The method `Client.Subscribe` from its wait on `returnCodes` on, for `n` topic
filters and the codes the channel delivers until it is closed. -/
def subscribeAwait (n : Nat) (codes : List Nat) : Outcome :=
  match collectCodes codes 0 [] with
  | none => .panicked
  | some (i, failures) =>
    if n < i then .returned (some (.subscribeCount i n))
    else if failures.length ≠ 0 then .returned (some (.subscribeFailures failures))
    else .returned none

/-- Modelled from the spec: the DISCONNECT packet, type 14 with remaining length 0
(the declaration of `disconnPacket` is missing). -/
def disconnPacket : Bytes := [byte (disconn <<< 4), 0]

/-- The method `Client.Disconnect`. -/
def Disconnect (s : State σ) : Outcome × State σ :=
  write s disconnPacket

/-! ## Connect -/

/-- Modelled from the spec: the Will of the session configuration, `{Topic, Message,
Deliver QoS, Retain}` (its declaration is missing). -/
structure Will where
  Topic : Bytes
  Message : Bytes
  Retain : Bool
  Deliver : Nat
  deriving DecidableEq, Repr

/-- Modelled from the spec: the session parameters of the configuration (the
declaration of `SessionConfig` is missing). An empty `UserName` is the string "",
`Password` and `Will` may be nil. -/
structure SessionConfig where
  ClientID : Bytes
  UserName : Bytes
  Password : Option Bytes
  Will : Option Will
  CleanSession : Bool
  KeepAlive : Nat
  deriving DecidableEq, Repr

/-- A connection as `Connecter` gives it: the write side, and the stream of what
the reads on it deliver. -/
structure NetConn where
  conn : Conn
  input : Reader
  deriving DecidableEq, Repr

/-- Modelled from the spec: the `connectReturn` code `accepted` is 0 (its
declaration is missing). -/
def accepted : Nat := 0

/-- The variable `size` of `connect` when the packet is composed. -/
def connectSize (cfg : SessionConfig) : Nat :=
  let size := 6
  let size := if cfg.UserName ≠ [] then size + (2 + cfg.UserName.length) else size
  let size := match cfg.Password with
    | some password => size + (2 + password.length)
    | none => size
  let size := match cfg.Will with
    | some w => size + (2 + w.Topic.length) + (2 + w.Message.length)
    | none => size
  size + (2 + cfg.ClientID.length)

/-- The variable `flags` of `connect`. -/
def connectFlags (cfg : SessionConfig) : Nat :=
  let flags := 0
  let flags := if cfg.UserName ≠ [] then flags ||| (1 <<< 7) else flags
  let flags := if cfg.Password.isSome then flags ||| (1 <<< 6) else flags
  let flags := match cfg.Will with
    | some w =>
      ((if w.Retain then flags ||| (1 <<< 5) else flags) ||| (w.Deliver <<< 3)) ||| (1 <<< 2)
    | none => flags
  if cfg.CleanSession then flags ||| (1 <<< 1) else flags

/-- The Will part of the payload that `connect` appends. -/
def connectWill (buf : Bytes) : Option Will → Except Error Bytes
  | none => .ok buf
  | some w =>
    match stringCheck w.Topic with
    | some err => .error err
    | none =>
      .ok (buf ++ [byte (w.Topic.length >>> 8), byte w.Topic.length] ++ w.Topic
        ++ [byte (w.Message.length >>> 8), byte w.Message.length] ++ w.Message)

/-- The user name part of the payload that `connect` appends. -/
def connectUserName (buf userName : Bytes) : Except Error Bytes :=
  if userName ≠ [] then
    match stringCheck userName with
    | some err => .error err
    | none => .ok (buf ++ [byte (userName.length >>> 8), byte userName.length] ++ userName)
  else .ok buf

/-- The password part of the payload that `connect` appends. -/
def connectPassword (buf : Bytes) : Option Bytes → Bytes
  | none => buf
  | some password => buf ++ [byte (password.length >>> 8), byte password.length] ++ password

/-- The buffer `p.buf` that `connect` composes, or the `stringCheck` error. The
statement `p.buf = append(p.buf[:0], byte(size))` after the size loop starts the
buffer again at length 0. -/
def connectPacket (cfg : SessionConfig) : Except Error Bytes :=
  let r := sizeLoop [byte (connReq <<< 4)] (connectSize cfg)
  let buf := [byte r.2]
  let buf := buf ++ [0, 4, 77, 81, 84, 84, 4, byte (connectFlags cfg)]
  match stringCheck cfg.ClientID with
  | some err => .error err
  | none =>
    let buf := buf ++ [byte (cfg.ClientID.length >>> 8), byte cfg.ClientID.length] ++ cfg.ClientID
    match connectWill buf cfg.Will with
    | .error err => .error err
    | .ok buf =>
      match connectUserName buf cfg.UserName with
      | .error err => .error err
      | .ok buf => .ok (connectPassword buf cfg.Password)

/-- The method `bufio.Reader.ReadByte`: a temporary error is reported like any other. -/
def ReadByte (r : Reader) : Except Error Nat × Reader :=
  match r.items with
  | [] => (.error r.endErr, r)
  | .data b :: rest => (.ok b, { r with items := rest })
  | .temporary :: rest => (.error .temporary, { r with items := rest })

/-- The method `Client.connect`, for the outcome `dial` of `c.Connecter()`: the
reader or the error. The four bytes of the reply are read from a first
`bufio.Reader`; the reader returned is a second one on the same connection and is
taken to go on where the first one stopped: bytes that the first reader has
buffered beyond the reply, which the code loses with that reader, stay on the
stream here. The method has no statement that touches `connSem`. -/
def connect (cfg : SessionConfig) (dial : Except Error NetConn) (s : State σ) :
    Except Error Reader × State σ :=
  match dial with
  | .error err => (.error err, s)
  | .ok nc =>
    match connectPacket cfg with
    | .error err => (.error err, s.log .connClose)
    | .ok buf =>
      match nc.conn.script with
      | .fail n _ code _ :: _ =>
        (.error (.other code), (s.log (.connWrite buf (min n buf.length))).log .connClose)
      | _ =>
        let s1 := s.log (.connWrite buf buf.length)
        match ReadByte nc.input with
        | (.error err, _) => (.error err, s1.log .connClose)
        | (.ok head, r1) =>
          if head ≠ connAck <<< 4 then (.error (.connectAck 0 head), s1)
          else
            match ReadByte r1 with
            | (.error err, _) => (.error err, s1.log .connClose)
            | (.ok remainingLen, r2) =>
              if remainingLen ≠ 2 then (.error (.connectAck 1 remainingLen), s1)
              else
                match ReadByte r2 with
                | (.error err, _) => (.error err, s1.log .connClose)
                | (.ok flags, r3) =>
                  if 1 < flags then (.error (.connectAck 2 flags), s1)
                  else
                    match ReadByte r3 with
                    | (.error err, _) => (.error err, s1.log .connClose)
                    | (.ok code, r4) =>
                      if code ≠ accepted then (.error (.connectReturn code), s1)
                      else (.ok r4, s1)

/-! ## Reading packets -/

/-- The errors of `Peek` and `Read`, as the `switch` statements of `peekOrReadN` and
`readN` tell them apart. -/
inductive ReadErr where
  /-- A `net.Error` whose `Temporary` method answers true. -/
  | temporary
  | ErrBufferFull
  /-- The error at the end of the stream. -/
  | fatal (err : Error)
  deriving DecidableEq, Repr

/-- The data bytes at the front of the stream, at most `n`, up to the first
temporary error or the end. -/
def frontBytes : Nat → List ReadItem → Bytes
  | n + 1, .data b :: rest => b :: frontBytes n rest
  | _, _ => []

/-- The method `bufio.Reader.Peek` on a reader with a buffer of `bufSize` bytes: the
next `n` bytes without advancing, or fewer bytes and the error; a temporary error
that was reported is gone from the stream. -/
def Peek (bufSize : Nat) (r : Reader) (n : Nat) : Bytes × Option ReadErr × Reader :=
  if bufSize < n then (frontBytes bufSize r.items, some .ErrBufferFull, r)
  else
    let p := frontBytes n r.items
    if p.length = n then (p, none, r)
    else
      match r.items.drop p.length with
      | .temporary :: rest =>
        (p, some .temporary, { r with items := r.items.take p.length ++ rest })
      | _ => (p, some (.fatal r.endErr), r)

/-- The method `bufio.Reader.Discard`: the error, if fewer than `n` bytes are skipped. -/
def discardItems (endErr : Error) : Nat → List ReadItem → Option Error × Reader
  | 0, items => (none, ⟨items, endErr⟩)
  | _ + 1, [] => (some endErr, ⟨[], endErr⟩)
  | n + 1, .data _ :: rest => discardItems endErr n rest
  | _ + 1, .temporary :: rest => (some .temporary, ⟨rest, endErr⟩)

/-- The method `bufio.Reader.Discard`. -/
def Discard (r : Reader) (n : Nat) : Option Error × Reader :=
  discardItems r.endErr n r.items

/-- The loop `for i < n` of `Client.readN` with the bytes read so far and the `err`
of the last `Read`; a nil slice is returned as the empty one. How many bytes one
`Read` delivers is up to the buffer and the network, and the loop arrives at the same
bytes for every split: each `Read` is taken to deliver one byte. -/
def readNLoop (endErr : Error) (n : Nat) :
    List ReadItem → Bytes → Option ReadErr → Bytes × Option ReadErr × Reader
  | [], p, err =>
    if p.length < n then
      match err with
      | some (.fatal e) => ([], some (.fatal e), ⟨[], endErr⟩)
      | some .ErrBufferFull => ([], some .ErrBufferFull, ⟨[], endErr⟩)
      | _ =>
        ([], some (.fatal (if p.length ≠ 0 then unexpectEOF endErr else endErr)), ⟨[], endErr⟩)
    else (p, err, ⟨[], endErr⟩)
  | item :: rest, p, err =>
    if p.length < n then
      match err with
      | some (.fatal e) => ([], some (.fatal e), ⟨item :: rest, endErr⟩)
      | some .ErrBufferFull => ([], some .ErrBufferFull, ⟨item :: rest, endErr⟩)
      | _ =>
        match item with
        | .temporary => readNLoop endErr n rest p (some .temporary)
        | .data b => readNLoop endErr n rest (p ++ [b]) none
    else (p, err, ⟨item :: rest, endErr⟩)

/-- The method `Client.readN` for `n > 0`: the first `Read` is the one of the first
round of the loop. -/
def readN (r : Reader) (n : Nat) : Bytes × Option ReadErr × Reader :=
  readNLoop r.endErr n r.items [] none

/-- The loop of `Client.peekOrReadN`, run for at most `fuel` calls of `Peek`: the
bytes, `didPeek`, the error and the reader. Each further round follows a temporary
error that `Peek` took from the stream. -/
def peekOrReadNLoop (bufSize n : Nat) : Nat → Reader → Bytes × Bool × Option ReadErr × Reader
  | 0, r => ([], false, some (.fatal r.endErr), r)
  | fuel + 1, r =>
    match Peek bufSize r n with
    | (p, none, r1) => (p, true, none, r1)
    | (_, some .ErrBufferFull, r1) =>
      let x := readN r1 n
      (x.1, false, x.2.1, x.2.2)
    | (_, some .temporary, r1) => peekOrReadNLoop bufSize n fuel r1
    | (p, some (.fatal err), r1) => (p, false, some (.fatal err), r1)

/-- The method `Client.peekOrReadN`: one call of `Peek` more than the stream has
items is enough for the loop to end. -/
def peekOrReadN (bufSize : Nat) (r : Reader) (n : Nat) : Bytes × Bool × Option ReadErr × Reader :=
  peekOrReadNLoop bufSize n (r.items.length + 1) r

/-- The method `Client.nextPacket` on a reader with a buffer of `bufSize` bytes. The
error of `peekOrReadN` is overwritten by the result of `inbound`. -/
def nextPacket (c : Client σ) (bufSize : Nat) (s : State σ) (r : Reader) :
    Outcome × State σ × Reader :=
  match readByte r with
  | (.error err, r1) => (.returned (some err), s, r1)
  | (.ok firstByte, r1) =>
    match readRemainingLength r1 with
    | (.error err, r2) => (.returned (some err), s, r2)
    | (.ok l, r2) =>
      if c.InSizeLimit < l then
        match Discard r2 l with
        | (none, r3) => (.returned none, s, r3)
        | (some err, r3) => (.returned (some (unexpectEOF err)), s, r3)
      else
        let x := peekOrReadN bufSize r2 l
        match inbound c s firstByte x.1 with
        | (.returned none, s1) =>
          (.returned none, s1, if x.2.1 then (Discard x.2.2.2 x.1.length).2 else x.2.2.2)
        | (out, s1) => (out, s1, x.2.2.2)

/-- The inner loop of `Client.readRoutine`, run for at most `fuel` packets: how the
last call of `nextPacket` ended. Each packet takes at least one item from the stream. -/
def packetLoop (c : Client σ) (bufSize : Nat) : Nat → State σ → Reader → Outcome × State σ × Reader
  | 0, s, r => (.returned none, s, r)
  | fuel + 1, s, r =>
    match nextPacket c bufSize s r with
    | (.returned none, s1, r1) => packetLoop c bufSize fuel s1 r1
    | out => out

/-- The method `Client.readRoutine` over the outcomes of the coming calls of
`c.Connecter()`: `some` says how the routine ended (`returned` is its return on
`ErrClosed`), `none` that it is at its next call of `Connecter`. -/
def readRoutine (c : Client σ) (cfg : SessionConfig) :
    List (Except Error NetConn) → State σ → Option Outcome × State σ
  | [], s => (none, s)
  | dial :: rest, s =>
    match connect cfg dial s with
    | (.ok r, s1) =>
      match packetLoop c 64 (r.items.length + 1) s1 r with
      | (.returned (some .ErrClosed), s2, _) => (some (.returned none), s2)
      | (.returned _, s2, _) => readRoutine c cfg rest s2
      | (out, s2, _) => (some out, s2)
    | (.error .ErrClosed, s1) => (some (.returned none), s1)
    | (.error _, s1) => readRoutine c cfg rest s1

/-- A client like `mapClient true` whose persistence fails every `Delete` with the
same error and leaves the map as it is. -/
def deleteFailsClient : Client (List (Nat × Bytes)) where
  Receive := fun _ _ m => (true, m)
  Persistence :=
    { Store := mapPersistence.Store
      Load := mapPersistence.Load
      Delete := fun _ m => (some (.other 1), m) }
  InSizeLimit := packetMax

/-! # Theorems -/

set_option maxRecDepth 20000 in
theorem or_128_byte (n : Nat) :
    (byte (n ||| 128)) &&& 127 = n % 128 ∧ ¬ byte (n ||| 128) < 128 ∧ byte (n ||| 128) < 256 := by
  have h : ∀ m : Fin 256, ((m.val ||| 128) &&& 127 = m.val % 128) ∧ ¬ (m.val ||| 128) < 128
      ∧ (m.val ||| 128) < 256 := by decide
  have e : byte (n ||| 128) = (n % 256) ||| 128 := by
    unfold byte
    apply Nat.eq_of_testBit_eq
    intro i
    simp only [Nat.testBit_mod_two_pow, Nat.testBit_or, show (256 : Nat) = 2 ^ 8 from rfl]
    by_cases hi : i < 8
    · simp [hi]
    · have : (128 : Nat).testBit i = false := by
        apply Nat.testBit_lt_two_pow
        calc 128 < 2 ^ 8 := by decide
          _ ≤ 2 ^ i := Nat.pow_le_pow_right (by decide) (by omega)
      simp [hi, this]
  have := h ⟨n % 256, Nat.mod_lt _ (by decide)⟩
  simp only at this
  rw [e]
  refine ⟨?_, this.2.1, this.2.2⟩
  rw [this.1]; omega

theorem or_shiftLeft_eq_add (a b k : Nat) (h : a < 2 ^ k) : a ||| (b <<< k) = a + b * 2 ^ k := by
  rw [Nat.or_comm, Nat.shiftLeft_eq, Nat.mul_comm b, ← Nat.mul_add_lt_is_or h]
  omega

theorem appendSize_small (buf : Bytes) (size : Nat) (h : size ≤ 127) :
    appendSize buf size = buf ++ [size] := by
  rw [appendSize, if_neg (by omega)]
  simp only [byte]
  congr
  omega

theorem appendSize_big (buf : Bytes) (size : Nat) (h : 127 < size) :
    appendSize buf size = appendSize (buf ++ [byte (size ||| 128)]) (size >>> 7) := by
  rw [appendSize, if_pos h]

theorem appendSize_append (buf : Bytes) (size : Nat) :
    appendSize buf size = buf ++ appendSize [] size := by
  induction size using Nat.strong_induction_on generalizing buf with
  | _ size ih =>
    by_cases h : 127 < size
    · have hlt : size >>> 7 < size := by
        simp only [Nat.shiftRight_eq_div_pow]
        omega
      rw [appendSize_big buf size h, appendSize_big [] size h, ih _ hlt, ih _ hlt ([] ++ _)]
      simp
    · rw [appendSize_small buf size (by omega), appendSize_small [] size (by omega)]
      simp

theorem readRemainingLengthLoop_cons (fuel l shift b : Nat) (rest : Bytes) (e : Error) :
    readRemainingLengthLoop (fuel + 1) l shift (Reader.ofBytes (b :: rest) e)
      = if b < 0x80 then (.ok (l ||| ((b &&& 127) <<< shift)), Reader.ofBytes rest e)
        else readRemainingLengthLoop fuel (l ||| ((b &&& 127) <<< shift)) (shift + 7)
          (Reader.ofBytes rest e) := by
  rfl

theorem readRemainingLengthLoop_appendSize (k : Nat) :
    ∀ (n l shift : Nat) (rest : Bytes) (e : Error), n < 2 ^ (7 * (k + 1)) → l < 2 ^ shift →
      readRemainingLengthLoop (k + 1) l shift (Reader.ofBytes (appendSize [] n ++ rest) e)
        = (.ok (l + n * 2 ^ shift), Reader.ofBytes rest e) := by
  induction k with
  | zero =>
    intro n l shift rest e hn hl
    have hn1 : n ≤ 127 := by simp at hn; omega
    rw [appendSize_small [] n hn1]
    simp only [List.nil_append, List.singleton_append, readRemainingLengthLoop_cons]
    have h127 : n &&& 127 = n := Nat.and_pow_two_sub_one_of_lt_two_pow (n := 7) (by simp; omega)
    rw [if_pos (by omega), h127, or_shiftLeft_eq_add l n shift hl]
  | succ k ih =>
    intro n l shift rest e hn hl
    by_cases h : 127 < n
    · rw [appendSize_big [] n h, appendSize_append]
      simp only [List.nil_append, List.singleton_append, List.cons_append,
        readRemainingLengthLoop_cons]
      obtain ⟨h1, h2, _⟩ := or_128_byte n
      rw [if_neg h2, h1, or_shiftLeft_eq_add l _ shift hl]
      have hshift : n >>> 7 < 2 ^ (7 * (k + 1)) := by
        simp only [Nat.shiftRight_eq_div_pow]
        have : (2 : Nat) ^ (7 * (k + 1 + 1)) = 2 ^ (7 * (k + 1)) * 2 ^ 7 := by
          rw [← Nat.pow_add]; congr 1
        rw [this] at hn
        exact Nat.div_lt_of_lt_mul (by rw [Nat.mul_comm]; exact hn)
      have hl1 : l + n % 128 * 2 ^ shift < 2 ^ (shift + 7) := by
        have : n % 128 < 128 := Nat.mod_lt _ (by decide)
        rw [Nat.pow_add]
        nlinarith
      rw [ih (n >>> 7) _ (shift + 7) rest e hshift hl1]
      congr 2
      simp only [Nat.shiftRight_eq_div_pow, Nat.pow_add]
      have : n = 128 * (n / 128) + n % 128 := (Nat.div_add_mod n 128).symm
      generalize 2 ^ shift = s at *
      norm_num
      nlinarith
    · have hn1 : n ≤ 127 := by omega
      rw [appendSize_small [] n hn1]
      simp only [List.nil_append, List.singleton_append, readRemainingLengthLoop_cons]
      have h127 : n &&& 127 = n := Nat.and_pow_two_sub_one_of_lt_two_pow (n := 7) (by simp; omega)
      rw [if_pos (by omega), h127, or_shiftLeft_eq_add l n shift hl]

/-- Claim C1: for every `n` in `[0, 268435455]` the size loop of `publish` and `pubmsg`
produces 1 byte for `n ≤ 127`, 2 bytes for `n ≤ 16383`, 3 bytes for `n ≤ 2097151` and
4 bytes otherwise, and `readRemainingLength` on a stream that starts with those bytes
returns `n` without an error, having read exactly those bytes. -/
theorem remaining_length_roundtrip (n : Nat) (hn : n ≤ 268435455) :
    (appendSize [] n).length
        = (if n ≤ 127 then 1 else if n ≤ 16383 then 2 else if n ≤ 2097151 then 3 else 4)
      ∧ ∀ (rest : Bytes) (e : Error),
          readRemainingLength (Reader.ofBytes (appendSize [] n ++ rest) e)
            = (.ok n, Reader.ofBytes rest e) := by
  constructor
  · by_cases h1 : n ≤ 127
    · rw [appendSize_small [] n h1, if_pos h1]; rfl
    · rw [if_neg h1, appendSize_big [] n (by omega)]
      have e7 : ∀ m : Nat, m >>> 7 = m / 128 := fun m => by
        simp [Nat.shiftRight_eq_div_pow]
      by_cases h2 : n ≤ 16383
      · rw [if_pos h2, appendSize_small _ _ (by rw [e7]; omega)]; rfl
      · rw [if_neg h2, appendSize_big _ _ (by rw [e7]; omega)]
        by_cases h3 : n ≤ 2097151
        · rw [if_pos h3, appendSize_small _ _ (by rw [e7, e7]; omega)]; rfl
        · rw [if_neg h3, appendSize_big _ _ (by rw [e7, e7]; omega),
            appendSize_small _ _ (by rw [e7, e7, e7]; omega)]
          rfl
  · intro rest e
    have := readRemainingLengthLoop_appendSize 3 n 0 0 rest e (by norm_num; omega) (by norm_num)
    simpa [readRemainingLength] using this

/-- Witness for `remaining_length_roundtrip` at `n = 300`. -/
theorem remaining_length_roundtrip_witness :
    (300 : Nat) ≤ 268435455 ∧
    ((appendSize [] 300).length
        = (if (300 : Nat) ≤ 127 then 1 else if (300 : Nat) ≤ 16383 then 2
            else if (300 : Nat) ≤ 2097151 then 3 else 4)
      ∧ ∀ (rest : Bytes) (e : Error),
          readRemainingLength (Reader.ofBytes (appendSize [] 300 ++ rest) e)
            = (.ok 300, Reader.ofBytes rest e)) :=
  ⟨by decide, remaining_length_roundtrip 300 (by decide)⟩

/-- Claim C2 fails on the code: `Publish` of topic "test/q0" with message
"Hello World!" writes the packet `0x30, 21, 0, 7, "test/q0", "Hello World!"`, and
`inbound` on first byte `0x30` and the 21 payload bytes invokes `Receive` once with
the topic "test/" (the slice `p[2:i]` ends two bytes early); on the packet of the
one-byte topic "a" it panics. -/
theorem publish_loopback_topic_cut :
    stringCheck [116, 101, 115, 116, 47, 113, 48] = none
    ∧ (Publish (freshState [] []) [116, 101, 115, 116, 47, 113, 48]
          [72, 101, 108, 108, 111, 32, 87, 111, 114, 108, 100, 33]).2.trace
        = [.connWrite ([0x30, 21] ++ ([0, 7, 116, 101, 115, 116, 47, 113, 48]
            ++ [72, 101, 108, 108, 111, 32, 87, 111, 114, 108, 100, 33])) 23]
    ∧ (inbound (mapClient true) (freshState [] []) 0x30
          ([0, 7, 116, 101, 115, 116, 47, 113, 48]
            ++ [72, 101, 108, 108, 111, 32, 87, 111, 114, 108, 100, 33])).2.trace
        = [.receive [116, 101, 115, 116, 47]
            [72, 101, 108, 108, 111, 32, 87, 111, 114, 108, 100, 33]]
    ∧ (Publish (freshState [] []) [97] [104, 105]).2.trace
        = [.connWrite ([0x30, 5] ++ [0, 1, 97, 104, 105]) 7]
    ∧ (inbound (mapClient true) (freshState [] []) 0x30 [0, 1, 97, 104, 105]).1
        = .panicked := by
  refine ⟨by decide, ?_, by decide, ?_, by decide⟩
  · simp [Publish, publish, stringCheck, packetMax, appendSize, byte, writeBuffers, freshState,
      writeBuffersAttempts, pubMsg]
  · simp [Publish, publish, stringCheck, packetMax, appendSize, byte, writeBuffers, freshState,
      writeBuffersAttempts, pubMsg]

/-! ## The write layer only adds connection events -/

theorem writeAttempts_trace (script : List WriteResp) :
    ∀ (p : Bytes) (tr : List Event), ∃ n rest,
      (writeAttempts p script tr).2.2.2 = tr ++ Event.connWrite p n :: rest
        ∧ ∀ e ∈ rest, e.isConn = true := by
  induction script with
  | nil => intro p tr; exact ⟨p.length, [], rfl, by simp⟩
  | cons r script ih =>
    intro p tr
    cases r with
    | ok => exact ⟨p.length, [], rfl, by simp⟩
    | fail n temporary code closed =>
      simp only [writeAttempts]
      by_cases hc : closed = true
      · exact ⟨min n p.length, [], by simp [hc], by simp⟩
      · by_cases ht : temporary = true
        · exact ⟨min n p.length, [.connClose], by simp [hc, ht], by simp [Event.isConn]⟩
        · obtain ⟨m, rest, h, hall⟩ := ih (p.drop (min n p.length))
            (tr ++ [.connWrite p (min n p.length)])
          refine ⟨min n p.length, .connWrite (p.drop (min n p.length)) m :: rest, ?_, ?_⟩
          · simp [hc, ht, h]
          · intro e he
            rcases List.mem_cons.1 he with rfl | he
            · rfl
            · exact hall e he

theorem writeBuffersAttempts_trace (script : List WriteResp) :
    ∀ (buffers : List Bytes) (tr : List Event), ∃ rest,
      (writeBuffersAttempts buffers script tr).2.2.2 = tr ++ rest
        ∧ ∀ e ∈ rest, e.isConn = true := by
  induction script with
  | nil => intro b tr; exact ⟨_, rfl, by simp [Event.isConn]⟩
  | cons r script ih =>
    intro b tr
    cases r with
    | ok => exact ⟨_, rfl, by simp [Event.isConn]⟩
    | fail n temporary code closed =>
      simp only [writeBuffersAttempts]
      by_cases hc : closed = true
      · exact ⟨[.connWrite b.flatten (min n b.flatten.length)], by simp [hc],
          by simp [Event.isConn]⟩
      · by_cases ht : temporary = true
        · exact ⟨[.connWrite b.flatten (min n b.flatten.length), .connClose],
            by simp [hc, ht], by simp [Event.isConn]⟩
        · obtain ⟨rest, h, hall⟩ := ih
            (todoBuffers (consume b (min n b.flatten.length)) (min n b.flatten.length))
            (tr ++ [.connWrite b.flatten (min n b.flatten.length)])
          refine ⟨.connWrite b.flatten (min n b.flatten.length) :: rest, ?_, ?_⟩
          · rw [if_neg hc, if_neg ht, h]
            simp only [List.append_assoc, List.singleton_append]
          · intro e he
            rcases List.mem_cons.1 he with rfl | he
            · rfl
            · exact hall e he

/-- With a connection in the slot, `write` returns, it changes only the slot and the
trace, and the events it adds are connection events that start with the write of `p`. -/
theorem write_some (s : State σ) (p : Bytes) (conn : Conn) (h : s.connSem = some conn) :
    ∃ err conn1 n rest,
      write s p = (.returned err,
        { s with connSem := some conn1, trace := s.trace ++ Event.connWrite p n :: rest })
      ∧ ∀ e ∈ rest, e.isConn = true := by
  obtain ⟨n, rest, ht, hall⟩ := writeAttempts_trace conn.script p s.trace
  refine ⟨(writeAttempts p conn.script s.trace).1,
    ⟨(writeAttempts p conn.script s.trace).2.1,
      conn.isClosed || (writeAttempts p conn.script s.trace).2.2.1⟩, n, rest, ?_, hall⟩
  rw [← ht]
  simp only [write, h]

/-- The method `writeBuffers` changes only the slot and the trace, and the events it
adds are connection events. -/
theorem writeBuffers_trace (s : State σ) (buffers : List Bytes) :
    ∃ rest, (writeBuffers s buffers).2.trace = s.trace ++ rest
      ∧ (writeBuffers s buffers).2.ext = s.ext
      ∧ ∀ e ∈ rest, e.isConn = true := by
  unfold writeBuffers
  cases h : s.connSem with
  | none => exact ⟨[], by simp, rfl, by simp⟩
  | some conn =>
    obtain ⟨rest, ht, hall⟩ := writeBuffersAttempts_trace conn.script buffers s.trace
    exact ⟨rest, ht, rfl, hall⟩

/-- With a connection in the slot, `writeBuffers` returns. -/
theorem writeBuffers_some (s : State σ) (buffers : List Bytes) (conn : Conn)
    (h : s.connSem = some conn) : ∃ err, (writeBuffers s buffers).1 = .returned err := by
  simp [writeBuffers, h]

/-- Claim C3: `persistAndTrySend` calls `Persistence.Store` with the key
`packetID | localPacketIDFlag` and the two buffers (packet start with the identifier,
message) as its first effect, before any write to the connection: the trace it adds is
that `Store` followed by connection events only. -/
theorem persistAndTrySend_store_first (c : Client σ) (s : State σ)
    (packetID : Nat) (packet message : Bytes) :
    ∃ rest, (persistAndTrySend c s packetID packet message).2.trace
        = s.trace ++ Event.store (packetID ||| localPacketIDFlag)
            [packet ++ [byte (packetID >>> 8), byte packetID], message] :: rest
      ∧ ∀ e ∈ rest, e.isConn = true := by
  simp only [persistAndTrySend]
  cases hst : (callStore c s (packetID ||| localPacketIDFlag)
      [packet ++ [byte (packetID >>> 8), byte packetID], message]) with
  | mk serr s1 =>
    have htr : s1.trace = s.trace ++ [Event.store (packetID ||| localPacketIDFlag)
        [packet ++ [byte (packetID >>> 8), byte packetID], message]] := by
      have := congrArg (fun r => r.2.trace) hst
      simpa [callStore] using this.symm
    cases serr with
    | some err => exact ⟨[], by simp [htr], by simp⟩
    | none =>
      obtain ⟨rest, ht, _, hall⟩ := writeBuffers_trace s1
        [packet ++ [byte (packetID >>> 8), byte packetID], message]
      refine ⟨rest, ?_, hall⟩
      simp only
      cases hw : writeBuffers s1 [packet ++ [byte (packetID >>> 8), byte packetID], message] with
      | mk out s2 =>
        rw [hw] at ht
        cases out <;> simp_all

/-- Claim C4: in `persistAndTrySend`, when `Persistence.Store` fails its error is
returned and the `Store` is the only effect (nothing is written to the connection);
when `Store` succeeds and the write slot holds a connection the result is nil,
whatever the outcomes of the write attempts (with an empty slot the call waits). -/
theorem persistAndTrySend_result (c : Client σ) (s : State σ)
    (packetID : Nat) (packet message : Bytes) :
    match (c.Persistence.Store (packetID ||| localPacketIDFlag)
        [packet ++ [byte (packetID >>> 8), byte packetID], message] s.ext).1 with
    | some err =>
      (persistAndTrySend c s packetID packet message).1 = .returned (some err)
        ∧ (persistAndTrySend c s packetID packet message).2.trace
          = s.trace ++ [Event.store (packetID ||| localPacketIDFlag)
              [packet ++ [byte (packetID >>> 8), byte packetID], message]]
    | none =>
      (persistAndTrySend c s packetID packet message).1
        = if s.connSem.isSome then .returned none else .blocked := by
  simp only [persistAndTrySend, callStore]
  cases hst : (c.Persistence.Store (packetID ||| localPacketIDFlag)
      [packet ++ [byte (packetID >>> 8), byte packetID], message] s.ext).1 with
  | some err => simp
  | none =>
    simp only
    cases hc : s.connSem with
    | none => simp [writeBuffers, hc]
    | some conn => simp [writeBuffers, hc]

/-- Claim C5 fails on the code: after `persistAndTrySend` has stored the QoS-1 PUBLISH
of identifier 1 under key 65537, `inbound` on the PUBACK for 1 calls `freeID(1)` and
then `Delete` on key 1, and the record under key 65537 is still in the store; likewise
the PUBCOMP for 1 on the exactly-once line in state RELEASED ends in `Delete` on key 1
and leaves the record under key 65537. -/
theorem puback_pubcomp_delete_key :
    pubmsg [97, 47, 98] [104, 105] 0x32 = .ok [0x32, 9, 0, 3, 97, 47, 98]
    ∧ (persistAndTrySend (mapClient true) (freshState [1] []) 1
          [0x32, 9, 0, 3, 97, 47, 98] [104, 105]).2.ext
        = [(65537, [0x32, 9, 0, 3, 97, 47, 98, 0, 1, 104, 105])]
    ∧ (inbound (mapClient true)
          (persistAndTrySend (mapClient true) (freshState [1] []) 1
            [0x32, 9, 0, 3, 97, 47, 98] [104, 105]).2 0x40 [0, 1]).1 = .returned none
    ∧ (inbound (mapClient true)
          (persistAndTrySend (mapClient true) (freshState [1] []) 1
            [0x32, 9, 0, 3, 97, 47, 98] [104, 105]).2 0x40 [0, 1]).2.trace
        = [.store 65537 [[0x32, 9, 0, 3, 97, 47, 98, 0, 1], [104, 105]],
            .connWrite [0x32, 9, 0, 3, 97, 47, 98, 0, 1, 104, 105] 11,
            .atLeastOnceFreeID 1, .delete 1]
    ∧ (inbound (mapClient true)
          (persistAndTrySend (mapClient true) (freshState [1] []) 1
            [0x32, 9, 0, 3, 97, 47, 98] [104, 105]).2 0x40 [0, 1]).2.ext
        = [(65537, [0x32, 9, 0, 3, 97, 47, 98, 0, 1, 104, 105])]
    ∧ (inbound (mapClient true)
          (persistAndTrySend (mapClient true) (freshState [] [(1, .released)]) 1
            [0x34, 9, 0, 3, 97, 47, 98] [104, 105]).2 0x70 [0, 1]).2.trace
        = [.store 65537 [[0x34, 9, 0, 3, 97, 47, 98, 0, 1], [104, 105]],
            .connWrite [0x34, 9, 0, 3, 97, 47, 98, 0, 1, 104, 105] 11,
            .exactlyOnceFreeID 1, .delete 1]
    ∧ (inbound (mapClient true)
          (persistAndTrySend (mapClient true) (freshState [] [(1, .released)]) 1
            [0x34, 9, 0, 3, 97, 47, 98] [104, 105]).2 0x70 [0, 1]).2.ext
        = [(65537, [0x34, 9, 0, 3, 97, 47, 98, 0, 1, 104, 105])] := by
  refine ⟨?_, by decide, by decide, by decide, by decide, by decide, by decide⟩
  simp [pubmsg, stringCheck, packetMax, appendSize, byte]

/-- Claim C6 fails on the code: with identifier 1 in state SENT and its PUBLISH stored
under key 65537, `inbound` on the PUBREC for 1 calls `releaseID(1)`, stores the PUBREL
packet under key 1 and writes it; the record under key 65537 is still the PUBLISH. -/
theorem pubrec_store_key :
    (inbound (mapClient true)
        (persistAndTrySend (mapClient true) (freshState [] [(1, .sent)]) 1
          [0x34, 9, 0, 3, 97, 47, 98] [104, 105]).2 0x50 [0, 1]).1 = .returned none
    ∧ (inbound (mapClient true)
        (persistAndTrySend (mapClient true) (freshState [] [(1, .sent)]) 1
          [0x34, 9, 0, 3, 97, 47, 98] [104, 105]).2 0x50 [0, 1]).2.trace
      = [.store 65537 [[0x34, 9, 0, 3, 97, 47, 98, 0, 1], [104, 105]],
          .connWrite [0x34, 9, 0, 3, 97, 47, 98, 0, 1, 104, 105] 11,
          .exactlyOnceReleaseID 1, .store 1 [[0x60, 2, 0, 1]], .connWrite [0x60, 2, 0, 1] 4]
    ∧ (inbound (mapClient true)
        (persistAndTrySend (mapClient true) (freshState [] [(1, .sent)]) 1
          [0x34, 9, 0, 3, 97, 47, 98] [104, 105]).2 0x50 [0, 1]).2.ext
      = [(1, [0x60, 2, 0, 1]), (65537, [0x34, 9, 0, 3, 97, 47, 98, 0, 1, 104, 105])]
    ∧ (inbound (mapClient true)
        (persistAndTrySend (mapClient true) (freshState [] [(1, .sent)]) 1
          [0x34, 9, 0, 3, 97, 47, 98] [104, 105]).2 0x50 [0, 1]).2.exactlyOnceLine
      = [(1, .released)] := by
  decide

/-- Claim C8 fails on the code: on the QoS-2 PUBLISH of topic "a/b", identifier 1 and
message "hi", `inbound` stores the record `"a", 0, 0, 1, "hi"` under key 0x2f62 (the
last two topic bytes) and writes the PUBREC for 0x2f62, where the claim has the
record `"a/b", 0, "hi"` under key 1 and the PUBREC for 1. -/
theorem publish_exactly_once_record :
    (inbound (mapClient true) (freshState [] []) 0x34
        [0, 3, 97, 47, 98, 0, 1, 104, 105]).2.trace
      = [.store 0x2f62 [[97, 0, 0, 1, 104, 105]], .connWrite [0x50, 2, 0x2f, 0x62] 4]
    ∧ exactlyOnceRecord [97, 47, 98] [104, 105] = [97, 47, 98, 0, 104, 105]
    ∧ ackPacket pubReceived 1 = [0x50, 2, 0, 1] := by
  decide

/-! ## The PUBREL branch -/

/-- The events `write` adds are connection events. -/
theorem write_trace (s : State σ) (p : Bytes) :
    ∃ rest, (write s p).2.trace = s.trace ++ rest ∧ ∀ e ∈ rest, e.isConn = true := by
  cases h : s.connSem with
  | none => exact ⟨[], by simp [write, h], by simp⟩
  | some conn =>
    obtain ⟨err, conn1, n, rest, hw, hall⟩ := write_some s p conn h
    refine ⟨.connWrite p n :: rest, by rw [hw], ?_⟩
    intro e he
    rcases List.mem_cons.1 he with rfl | he
    · rfl
    · exact hall e he

/-- The PUBREL branch, case by case on what `Load`, the split of the record and
`Receive` give. -/
theorem inboundPubRelease_trace (c : Client σ) (s : State σ) (a b : Nat) :
    match c.Persistence.Load (uint16BE [a, b]) s.ext with
    | (.error _, _) =>
      (inboundPubRelease c s [a, b]).1 = .returned none
        ∧ (inboundPubRelease c s [a, b]).2.trace = s.trace ++ [.load (uint16BE [a, b])]
    | (.ok none, _) =>
      (inboundPubRelease c s [a, b]).1
          = (write (s.log (.load (uint16BE [a, b]))) (ackPacket pubComplete (uint16BE [a, b]))).1
        ∧ (inboundPubRelease c s [a, b]).2.trace
          = (write (s.log (.load (uint16BE [a, b])))
              (ackPacket pubComplete (uint16BE [a, b]))).2.trace
    | (.ok (some bytes), e1) =>
      match splitRecord bytes with
      | none =>
        (inboundPubRelease c s [a, b]).1
            = (write ((s.log (.load (uint16BE [a, b]))).log (.delete (uint16BE [a, b])))
                (ackPacket pubComplete (uint16BE [a, b]))).1
          ∧ (inboundPubRelease c s [a, b]).2.trace
            = (write ((s.log (.load (uint16BE [a, b]))).log (.delete (uint16BE [a, b])))
                (ackPacket pubComplete (uint16BE [a, b]))).2.trace
      | some tm =>
        if (c.Receive tm.1 tm.2 e1).1 = true then
          (inboundPubRelease c s [a, b]).1
              = (write (((s.log (.load (uint16BE [a, b]))).log (.receive tm.1 tm.2)).log
                  (.delete (uint16BE [a, b]))) (ackPacket pubComplete (uint16BE [a, b]))).1
            ∧ (inboundPubRelease c s [a, b]).2.trace
              = (write (((s.log (.load (uint16BE [a, b]))).log (.receive tm.1 tm.2)).log
                  (.delete (uint16BE [a, b]))) (ackPacket pubComplete (uint16BE [a, b]))).2.trace
        else
          (inboundPubRelease c s [a, b]).1 = .returned none
            ∧ (inboundPubRelease c s [a, b]).2.trace
              = s.trace ++ [.load (uint16BE [a, b]), .receive tm.1 tm.2] := by
  simp only [inboundPubRelease, callLoad, callReceive, callDelete, State.log]
  rcases hl : c.Persistence.Load (uint16BE [a, b]) s.ext with ⟨res, e1⟩
  cases res with
  | error err => simp
  | ok v =>
    cases v with
    | none => cases hc : s.connSem <;> simp [write, hc]
    | some bytes =>
      cases hs : splitRecord bytes with
      | none => cases hc : s.connSem <;> simp [write, hc, hs]
      | some tm =>
        obtain ⟨t, m⟩ := tm
        by_cases hr : (c.Receive t m e1).1 = true
        · cases hc : s.connSem <;> simp [hr, write, hc, hs]
        · simp [hr, hs]

theorem inbound_pubRelease (c : Client σ) (s : State σ) (firstByte : Nat) (p : Bytes)
    (hfb : firstByte >>> 4 = pubRelease) : inbound c s firstByte p = inboundPubRelease c s p := by
  simp [inbound, hfb, pubRelease, pubMsg]

/-- Claim C7 fails on the code: with the record `"a", 0, "h"` stored under key 1 and a
`Receive` that answers false, `inbound` on the PUBREL for 1 loads the record, invokes
`Receive` and returns nil without any write to the connection. -/
theorem pubrel_receive_false_no_pubcomp :
    (inbound (mapClient false) { freshState [] [] with ext := [(1, [97, 0, 104])] }
        0x60 [0, 1]).1 = .returned none
    ∧ (inbound (mapClient false) { freshState [] [] with ext := [(1, [97, 0, 104])] }
        0x60 [0, 1]).2.trace = [.load 1, .receive [97] [104]] := by
  decide

/-- Claim C7 as amended: for an inbound PUBREL with a 2-byte identifier, received while
the write slot holds a connection, `inbound` writes the PUBCOMP for that identifier
(its first connection event) when `Load` succeeds and finds no record, a record
without a zero byte, or a record on which `Receive` answers true; when `Load` fails
or `Receive` answers false it returns nil and adds no connection event. -/
theorem pubrel_pubcomp_cases (c : Client σ) (s : State σ) (firstByte a b : Nat) (conn : Conn)
    (hfb : firstByte >>> 4 = pubRelease) (hconn : s.connSem = some conn) :
    if pubReleaseConfirms c s (uint16BE [a, b]) = true then
      ∃ pre n post, (inbound c s firstByte [a, b]).2.trace
          = s.trace ++ pre ++ Event.connWrite (ackPacket pubComplete (uint16BE [a, b])) n :: post
        ∧ ∀ e ∈ pre, e.isConn = false
    else
      (inbound c s firstByte [a, b]).1 = .returned none
        ∧ ∃ pre, (inbound c s firstByte [a, b]).2.trace = s.trace ++ pre
          ∧ ∀ e ∈ pre, e.isConn = false := by
  rw [inbound_pubRelease c s firstByte [a, b] hfb]
  have key := inboundPubRelease_trace c s a b
  have hw : ∀ (evs : List Event), (∀ e ∈ evs, e.isConn = false) →
      ∀ s1 : State σ, s1.connSem = some conn → s1.trace = s.trace ++ evs →
      ∃ pre n post, (write s1 (ackPacket pubComplete (uint16BE [a, b]))).2.trace
          = s.trace ++ pre ++ Event.connWrite (ackPacket pubComplete (uint16BE [a, b])) n :: post
        ∧ ∀ e ∈ pre, e.isConn = false := by
    intro evs hevs s1 hc ht
    obtain ⟨err, conn1, n, rest, hw, _⟩ :=
      write_some s1 (ackPacket pubComplete (uint16BE [a, b])) conn hc
    exact ⟨evs, n, rest, by rw [hw, ht], hevs⟩
  unfold pubReleaseConfirms
  rcases hl : c.Persistence.Load (uint16BE [a, b]) s.ext with ⟨res, e1⟩
  rw [hl] at key
  cases res with
  | error err =>
    simp only at key ⊢
    exact ⟨key.1, [.load (uint16BE [a, b])], key.2, by simp [Event.isConn]⟩
  | ok v =>
    cases v with
    | none =>
      simp only at key ⊢
      rw [if_pos trivial, key.2]
      exact hw [.load (uint16BE [a, b])] (by simp [Event.isConn]) _ hconn (by simp [State.log])
    | some bytes =>
      simp only at key ⊢
      have hsplit : splitRecord bytes = none ∨ ∃ tm, splitRecord bytes = some tm := by
        cases splitRecord bytes <;> simp
      rcases hsplit with hs | ⟨tm, hs⟩
      · simp only [hs] at key ⊢
        rw [if_pos trivial, key.2]
        exact hw [.load (uint16BE [a, b]), .delete (uint16BE [a, b])] (by simp [Event.isConn])
          _ hconn (by simp [State.log])
      · simp only [hs] at key ⊢
        by_cases hr : (c.Receive tm.1 tm.2 e1).1 = true
        · rw [if_pos hr] at key
          rw [if_pos hr, key.2]
          exact hw [.load (uint16BE [a, b]), .receive tm.1 tm.2, .delete (uint16BE [a, b])]
            (by simp [Event.isConn]) _ hconn (by simp [State.log])
        · rw [if_neg hr] at key
          rw [if_neg hr]
          exact ⟨key.1, [.load (uint16BE [a, b]), .receive tm.1 tm.2], key.2,
            by simp [Event.isConn]⟩

/-- Witness for `pubrel_pubcomp_cases`: the PUBREL for identifier 1 with no record. -/
theorem pubrel_pubcomp_cases_witness :
    ((0x60 : Nat) >>> 4 = pubRelease ∧ (freshState [] []).connSem = some ⟨[], false⟩)
    ∧ (if pubReleaseConfirms (mapClient true) (freshState [] []) (uint16BE [0, 1]) = true then
        ∃ pre n post, (inbound (mapClient true) (freshState [] []) 0x60 [0, 1]).2.trace
            = (freshState [] []).trace ++ pre
              ++ Event.connWrite (ackPacket pubComplete (uint16BE [0, 1])) n :: post
          ∧ ∀ e ∈ pre, e.isConn = false
      else
        (inbound (mapClient true) (freshState [] []) 0x60 [0, 1]).1 = .returned none
          ∧ ∃ pre, (inbound (mapClient true) (freshState [] []) 0x60 [0, 1]).2.trace
              = (freshState [] []).trace ++ pre
            ∧ ∀ e ∈ pre, e.isConn = false) :=
  ⟨⟨by decide, rfl⟩,
    pubrel_pubcomp_cases (mapClient true) (freshState [] []) 0x60 0 1 ⟨[], false⟩ (by decide) rfl⟩

theorem splitRecord_exactlyOnceRecord (topic message : Bytes) (h0 : 0 ∉ topic) :
    splitRecord (exactlyOnceRecord topic message) = some (topic, message) := by
  induction topic with
  | nil => simp [exactlyOnceRecord, splitRecord]
  | cons b topic ih =>
    have hb : b ≠ 0 := fun h => h0 (by simp [h])
    have ht : 0 ∉ topic := fun h => h0 (List.mem_cons_of_mem _ h)
    have ih := ih ht
    simp only [exactlyOnceRecord, List.append_assoc, List.cons_append, List.nil_append] at ih ⊢
    simp [splitRecord, hb, ih]

theorem isConn_not_isReceive (e : Event) (h : e.isConn = true) : e.isReceive = false := by
  cases e <;> simp_all [Event.isConn, Event.isReceive]

/-- Claim C9: for every topic without a zero byte and every message, the QoS-2 PUBLISH
branch stores the record `topic, 0, message`, and when `Load` gives that record the
PUBREL branch invokes `Receive` exactly once, with that topic and that message. -/
theorem exactly_once_record_roundtrip (c : Client σ) (s s1 : State σ)
    (firstByte relByte packetID a b : Nat) (topic message : Bytes) (e1 : σ)
    (h0 : 0 ∉ topic) (hq : firstByte &&& 0b110 = ExactlyOnce <<< 1)
    (hfb : relByte >>> 4 = pubRelease)
    (hload : c.Persistence.Load (uint16BE [a, b]) s1.ext
      = (.ok (some (exactlyOnceRecord topic message)), e1)) :
    (∃ rest, (inboundPublish c s firstByte topic packetID message).2.trace
        = s.trace ++ Event.store packetID [exactlyOnceRecord topic message] :: rest
      ∧ ∀ e ∈ rest, e.isReceive = false)
    ∧ ∃ rest, (inbound c s1 relByte [a, b]).2.trace
        = s1.trace ++ Event.load (uint16BE [a, b]) :: Event.receive topic message :: rest
      ∧ ∀ e ∈ rest, e.isReceive = false := by
  constructor
  · have hq1 : ¬ (firstByte &&& 0b110 = AtMostOnce <<< 1) := by rw [hq]; decide
    have hq2 : ¬ (firstByte &&& 0b110 = AtLeastOnce <<< 1) := by rw [hq]; decide
    simp only [inboundPublish, if_neg hq1, if_neg hq2, if_pos hq, callStore]
    cases hst : (c.Persistence.Store packetID [exactlyOnceRecord topic message] s.ext).1 with
    | some err => exact ⟨[], by simp, by simp⟩
    | none =>
      simp only
      obtain ⟨rest, ht, hall⟩ := write_trace
        ({ s with ext := (c.Persistence.Store packetID [exactlyOnceRecord topic message] s.ext).2,
                  trace := s.trace ++ [Event.store packetID [exactlyOnceRecord topic message]] })
        (ackPacket pubReceived packetID)
      exact ⟨rest, by rw [ht]; simp, fun e he => isConn_not_isReceive e (hall e he)⟩
  · rw [inbound_pubRelease c s1 relByte [a, b] hfb]
    have key := inboundPubRelease_trace c s1 a b
    rw [hload] at key
    simp only [splitRecord_exactlyOnceRecord topic message h0] at key
    by_cases hr : (c.Receive topic message e1).1 = true
    · rw [if_pos hr] at key
      obtain ⟨rest, ht, hall⟩ := write_trace
        (((s1.log (.load (uint16BE [a, b]))).log (.receive topic message)).log
          (.delete (uint16BE [a, b]))) (ackPacket pubComplete (uint16BE [a, b]))
      refine ⟨.delete (uint16BE [a, b]) :: rest, ?_, ?_⟩
      · rw [key.2, ht]; simp [State.log]
      · intro e he
        rcases List.mem_cons.1 he with rfl | he
        · rfl
        · exact isConn_not_isReceive e (hall e he)
    · rw [if_neg hr] at key
      exact ⟨[], by rw [key.2], by simp⟩

/-- Witness for `exactly_once_record_roundtrip`: topic "a", message `0, "h"`, identifier 1. -/
theorem exactly_once_record_roundtrip_witness :
    ((0 : Nat) ∉ ([97] : Bytes) ∧ (0x34 : Nat) &&& 0b110 = ExactlyOnce <<< 1
      ∧ (0x60 : Nat) >>> 4 = pubRelease
      ∧ (mapClient true).Persistence.Load (uint16BE [0, 1])
          ({ freshState [] [] with ext := [(1, [97, 0, 0, 104])] } : State _).ext
        = (.ok (some (exactlyOnceRecord [97] [0, 104])), [(1, [97, 0, 0, 104])]))
    ∧ ((∃ rest, (inboundPublish (mapClient true) (freshState [] []) 0x34 [97] 1 [0, 104]).2.trace
          = (freshState [] []).trace ++ Event.store 1 [exactlyOnceRecord [97] [0, 104]] :: rest
        ∧ ∀ e ∈ rest, e.isReceive = false)
      ∧ ∃ rest, (inbound (mapClient true)
            { freshState [] [] with ext := [(1, [97, 0, 0, 104])] } 0x60 [0, 1]).2.trace
          = ({ freshState [] [] with ext := [(1, [97, 0, 0, 104])] } : State _).trace
            ++ Event.load (uint16BE [0, 1]) :: Event.receive [97] [0, 104] :: rest
        ∧ ∀ e ∈ rest, e.isReceive = false) :=
  ⟨⟨by decide, by decide, by decide, rfl⟩,
    exactly_once_record_roundtrip (mapClient true) (freshState [] [])
      { freshState [] [] with ext := [(1, [97, 0, 0, 104])] } 0x34 0x60 1 0 1 [97] [0, 104]
      [(1, [97, 0, 0, 104])] (by decide) (by decide) (by decide) rfl⟩

/-- Claim C10 fails on the code: with the record `"A"` (no zero byte) stored under
key 1, `inbound` on the PUBREL for 1 calls `Delete` on key 1 without any call of
`Receive`, and the record is gone. -/
theorem pubrel_delete_without_receive :
    (inbound (mapClient true) { freshState [] [] with ext := [(1, [65])] } 0x60 [0, 1]).2.trace
      = [.load 1, .delete 1, .connWrite [0x70, 2, 0, 1] 4]
    ∧ (inbound (mapClient true) { freshState [] [] with ext := [(1, [65])] } 0x60 [0, 1]).2.ext
      = [] := by
  decide

/-- Claim C10 as amended: for an inbound PUBREL whose identifier has a stored record
(any byte string that `Load` gives): if the record has a zero byte, `Receive` is
invoked on the parts before and after the first one, and `Delete` is called for the
identifier, after that `Receive`, only if it answered true, while on the answer false
`inbound` returns nil with no further call at all; if the record has no zero byte,
`Delete` is called and `Receive` is not invoked. -/
theorem pubrel_delete_cases (c : Client σ) (s : State σ) (firstByte a b : Nat)
    (bytes : Bytes) (e1 : σ) (hfb : firstByte >>> 4 = pubRelease)
    (hload : c.Persistence.Load (uint16BE [a, b]) s.ext = (.ok (some bytes), e1)) :
    match splitRecord bytes with
    | none =>
      ∃ rest, (inbound c s firstByte [a, b]).2.trace
          = s.trace ++ [.load (uint16BE [a, b]), .delete (uint16BE [a, b])] ++ rest
        ∧ ∀ e ∈ rest, e.isConn = true
    | some tm =>
      if (c.Receive tm.1 tm.2 e1).1 = true then
        ∃ rest, (inbound c s firstByte [a, b]).2.trace
            = s.trace ++ [.load (uint16BE [a, b]), .receive tm.1 tm.2,
                .delete (uint16BE [a, b])] ++ rest
          ∧ ∀ e ∈ rest, e.isConn = true
      else
        (inbound c s firstByte [a, b]).1 = .returned none
          ∧ (inbound c s firstByte [a, b]).2.trace
            = s.trace ++ [.load (uint16BE [a, b]), .receive tm.1 tm.2] := by
  rw [inbound_pubRelease c s firstByte [a, b] hfb]
  have key := inboundPubRelease_trace c s a b
  rw [hload] at key
  simp only at key
  have hsplit : splitRecord bytes = none ∨ ∃ tm, splitRecord bytes = some tm := by
    cases splitRecord bytes <;> simp
  rcases hsplit with hs | ⟨tm, hs⟩
  · simp only [hs] at key ⊢
    obtain ⟨rest, ht, hall⟩ := write_trace
      ((s.log (.load (uint16BE [a, b]))).log (.delete (uint16BE [a, b])))
      (ackPacket pubComplete (uint16BE [a, b]))
    exact ⟨rest, by rw [key.2, ht]; simp [State.log], hall⟩
  · simp only [hs] at key ⊢
    by_cases hr : (c.Receive tm.1 tm.2 e1).1 = true
    · rw [if_pos hr] at key
      rw [if_pos hr]
      obtain ⟨rest, ht, hall⟩ := write_trace
        (((s.log (.load (uint16BE [a, b]))).log (.receive tm.1 tm.2)).log
          (.delete (uint16BE [a, b]))) (ackPacket pubComplete (uint16BE [a, b]))
      exact ⟨rest, by rw [key.2, ht]; simp [State.log], hall⟩
    · rw [if_neg hr] at key
      rw [if_neg hr]
      exact key

/-- Witness for `pubrel_delete_cases`: the record `"a", 0, "h"` and a `Receive` that
answers false. -/
theorem pubrel_delete_cases_witness :
    ((0x60 : Nat) >>> 4 = pubRelease
      ∧ (mapClient false).Persistence.Load (uint16BE [0, 1])
          ({ freshState [] [] with ext := [(1, [97, 0, 104])] } : State _).ext
        = (.ok (some [97, 0, 104]), [(1, [97, 0, 104])]))
    ∧ (inbound (mapClient false) { freshState [] [] with ext := [(1, [97, 0, 104])] }
          0x60 [0, 1]).1 = .returned none
    ∧ (inbound (mapClient false) { freshState [] [] with ext := [(1, [97, 0, 104])] }
          0x60 [0, 1]).2.trace = [.load 1, .receive [97] [104]] :=
  ⟨⟨by decide, rfl⟩,
    pubrel_delete_cases (mapClient false) { freshState [] [] with ext := [(1, [97, 0, 104])] }
      0x60 0 1 [97, 0, 104] [(1, [97, 0, 104])] (by decide) rfl⟩

/-! ## Inbound PUBLISH with QoS 1, and the packets `inbound` rejects -/

/-- Claim C11 fails on the code: on the QoS-1 PUBLISH of topic "a/b", identifier 1 and
message "hi", `inbound` invokes `Receive` with topic "a" and message `0, 1, "hi"` and
writes the PUBACK for identifier 0x2f62 (the last two topic bytes), where the claim
has the PUBACK `0x40, 2, 0, 1`; on the QoS-1 PUBLISH of the one-byte topic "a" it
panics before any call of `Receive`. -/
theorem publish_at_least_once_ack :
    (inbound (mapClient true) (freshState [] []) 0x32
        [0, 3, 97, 47, 98, 0, 1, 104, 105]).2.trace
      = [.receive [97] [0, 1, 104, 105], .connWrite [0x40, 2, 0x2f, 0x62] 4]
    ∧ ackPacket pubAck 1 = [0x40, 2, 0, 1]
    ∧ (inbound (mapClient true) (freshState [] []) 0x32 [0, 1, 97, 0, 1, 104, 105]).1
      = .panicked
    ∧ (inbound (mapClient true) (freshState [] []) 0x32 [0, 1, 97, 0, 1, 104, 105]).2.trace
      = [] := by
  decide

/-- Claim C12: for a first byte whose type nibble is reserved (0 or 15), client-only
(CONNECT, SUBSCRIBE, UNSUBSCRIBE, PINGREQ, DISCONNECT) or CONNACK, and any payload,
`inbound` returns an error that wraps `errProtoReset` and leaves the whole state as
it was: no call of `Receive` or of the persistence, no change of a line, no write. -/
theorem inbound_rejects_foreign_types (c : Client σ) (s : State σ) (firstByte : Nat) (p : Bytes)
    (h : firstByte >>> 4 ∈ [0, 15, connReq, subReq, unsubReq, ping, disconn, connAck]) :
    ∃ err, inbound c s firstByte p = (.returned (some err), s) ∧ err.isProtoReset = true := by
  refine ⟨.errProtoReset, ?_, rfl⟩
  simp only [List.mem_cons, List.mem_singleton, List.not_mem_nil, or_false] at h
  rcases h with h | h | h | h | h | h | h | h <;>
    simp [inbound, h, pubMsg, pubRelease, pubAck, pubReceived, pubComplete, subAck, unsubAck,
      pong, connReq, subReq, unsubReq, ping, disconn, connAck]

/-- Witness for `inbound_rejects_foreign_types`: a SUBSCRIBE (0x82) from the server. -/
theorem inbound_rejects_foreign_types_witness :
    (0x82 : Nat) >>> 4 ∈ [0, 15, connReq, subReq, unsubReq, ping, disconn, connAck]
    ∧ ∃ err, inbound (mapClient true) (freshState [1] [(2, .sent)]) 0x82 [0, 1, 0, 1, 97, 2]
        = (.returned (some err), freshState [1] [(2, .sent)]) ∧ err.isProtoReset = true :=
  ⟨by decide,
    inbound_rejects_foreign_types (mapClient true) (freshState [1] [(2, .sent)]) 0x82
      [0, 1, 0, 1, 97, 2] (by decide)⟩

/-- Claim C13: for a PUBACK, PUBREC, PUBREL, PUBCOMP or UNSUBACK whose payload length
is not 2, and for a PINGRESP whose payload length is not 0, `inbound` returns an error
that wraps `errProtoReset` and leaves the whole state as it was: both lines, the
persistence, the ping and subscription slots, and nothing is written. -/
theorem inbound_rejects_wrong_length (c : Client σ) (s : State σ) (firstByte : Nat) (p : Bytes)
    (h : (firstByte >>> 4 ∈ [pubAck, pubReceived, pubRelease, pubComplete, unsubAck]
          ∧ p.length ≠ 2)
        ∨ (firstByte >>> 4 = pong ∧ p.length ≠ 0)) :
    ∃ err, inbound c s firstByte p = (.returned (some err), s) ∧ err.isProtoReset = true := by
  refine ⟨.errProtoReset, ?_, rfl⟩
  simp only [List.mem_cons, List.mem_singleton, List.not_mem_nil, or_false] at h
  rcases h with ⟨h | h | h | h | h, hl⟩ | ⟨h, hl⟩ <;>
    simp [inbound, inboundPubRelease, h, hl, pubMsg, pubRelease, pubAck, pubReceived,
      pubComplete, subAck, unsubAck, pong]

/-- Witness for `inbound_rejects_wrong_length`: a PUBACK with a 3-byte payload. -/
theorem inbound_rejects_wrong_length_witness :
    (((0x40 : Nat) >>> 4 ∈ [pubAck, pubReceived, pubRelease, pubComplete, unsubAck]
          ∧ ([0, 1, 0] : Bytes).length ≠ 2)
        ∨ ((0x40 : Nat) >>> 4 = pong ∧ ([0, 1, 0] : Bytes).length ≠ 0))
    ∧ ∃ err, inbound (mapClient true) (freshState [1] [(2, .sent)]) 0x40 [0, 1, 0]
        = (.returned (some err), freshState [1] [(2, .sent)]) ∧ err.isProtoReset = true :=
  ⟨by decide,
    inbound_rejects_wrong_length (mapClient true) (freshState [1] [(2, .sent)]) 0x40
      [0, 1, 0] (by decide)⟩

/-! ## Subscribe -/

theorem collectCodes_eq (codes : List Nat) :
    ∀ (i : Nat) (failures : List Nat), (∀ x ∈ codes, x ∈ [0, 1, 2, 0x80]) →
      collectCodes codes i failures
        = some (i + codes.length,
            failures ++ ((List.range codes.length).filter
              fun j => codes[j]? = some 0x80).map fun j => j + i) := by
  induction codes with
  | nil => intro i failures _; simp [collectCodes]
  | cons x rest ih =>
    intro i failures h
    have hx : x ∈ [0, 1, 2, 0x80] := h x (List.mem_cons_self _ _)
    have hrest : ∀ y ∈ rest, y ∈ [0, 1, 2, 0x80] := fun y hy => h y (List.mem_cons_of_mem _ hy)
    have hrange : List.range (rest.length + 1) = 0 :: (List.range rest.length).map Nat.succ := by
      rw [List.range_succ_eq_map]
    simp only [List.length_cons, hrange, List.filter_cons, List.filter_map]
    have hcomp : ((fun j => decide ((x :: rest)[j]? = some 0x80)) ∘ Nat.succ)
        = fun j => decide (rest[j]? = some 0x80) := by
      funext j
      simp
    rw [hcomp]
    simp only [List.mem_cons, List.mem_singleton, List.not_mem_nil, or_false] at hx
    rcases hx with hx | hx | hx | hx
    · subst hx
      simp only [collectCodes, AtMostOnce, true_or, if_true]
      rw [ih (i + 1) failures hrest]
      simp [List.map_map, Function.comp_def, Nat.add_comm, Nat.add_left_comm]
    · subst hx
      simp only [collectCodes, AtMostOnce, AtLeastOnce, true_or, or_true, if_true]
      rw [ih (i + 1) failures hrest]
      simp [List.map_map, Function.comp_def, Nat.add_comm, Nat.add_left_comm]
    · subst hx
      simp only [collectCodes, AtMostOnce, AtLeastOnce, ExactlyOnce, or_true, if_true]
      rw [ih (i + 1) failures hrest]
      simp [List.map_map, Function.comp_def, Nat.add_comm, Nat.add_left_comm]
    · subst hx
      simp only [collectCodes, AtMostOnce, AtLeastOnce, ExactlyOnce]
      rw [if_pos trivial, ih (i + 1) (failures ++ [i]) hrest]
      simp [List.map_map, Function.comp_def, Nat.add_comm, Nat.add_left_comm]

theorem sendCodes_all (codes : List Nat) :
    ∀ (ack : AckChan) (tr : List Event), ack.held + codes.length ≤ ack.cap →
      sendCodes codes ack tr = tr ++ codes.map Event.ackSend := by
  induction codes with
  | nil => intro ack tr _; simp [sendCodes]
  | cons x rest ih =>
    intro ack tr h
    simp only [List.length_cons] at h
    simp only [sendCodes]
    rw [if_pos (by omega), ih _ _ (by simp only; omega)]
    simp

theorem write_subscriptionAck (s : State σ) (p : Bytes) :
    (write s p).2.subscriptionAck = s.subscriptionAck := by
  unfold write
  cases s.connSem <;> rfl

theorem subscribeRequest_waiting (c : Client σ) (s s1 : State σ) (topicFilters : List Bytes)
    (hreq : subscribeRequest c s topicFilters = (none, s1)) :
    s1.subscriptionAck = some ⟨topicFilters.length, 0⟩ ∧ 1 ≤ topicFilters.length := by
  unfold subscribeRequest at hreq
  by_cases h0 : topicFilters.length = 0
  · simp [h0] at hreq
  · rw [if_neg h0] at hreq
    refine ⟨?_, by omega⟩
    cases hm : measureFilters topicFilters (2 + topicFilters.length * 3) with
    | error err => simp [hm] at hreq
    | ok size =>
      simp only [hm] at hreq
      by_cases hp : packetMax < size
      · simp [hp] at hreq
      · rw [if_neg hp] at hreq
        cases hs : s.subscriptionAck with
        | some ack => simp [hs] at hreq
        | none =>
          simp only [hs, callStore] at hreq
          cases hst : (c.Persistence.Store (subscriptionPacketID ||| localPacketIDFlag)
              [subscribePacket topicFilters size] s.ext).1 with
          | some err => simp [hst] at hreq
          | none =>
            simp only [hst] at hreq
            have hw := write_subscriptionAck
              ({ s with subscriptionAck := some ⟨topicFilters.length, 0⟩,
                        ext := (c.Persistence.Store (subscriptionPacketID ||| localPacketIDFlag)
                          [subscribePacket topicFilters size] s.ext).2,
                        trace := s.trace ++ [Event.store (subscriptionPacketID ||| localPacketIDFlag)
                          [subscribePacket topicFilters size]] } : State σ)
              (subscribePacket topicFilters size)
            revert hreq hw
            generalize write _ (subscribePacket topicFilters size) = r
            obtain ⟨out, s3⟩ := r
            intro hreq hw
            cases out with
            | returned err =>
              cases err with
              | none =>
                simp only [Prod.mk.injEq, true_and] at hreq
                rw [← hreq]
                exact hw
              | some e => simp at hreq
            | panicked => simp at hreq
            | blocked => simp at hreq

/-- The SUBACK handler and the loop of `Subscribe` when the `Delete` of the handler
succeeds: the codes are sent and the channel is closed, and `Subscribe` returns nil
if no code is 0x80 and else the error with the indices of the codes 0x80. -/
theorem subscribe_codes_delivered (c : Client σ) (s s1 s2 : State σ) (topicFilters : List Bytes)
    (codes : List Nat) (firstByte : Nat)
    (hreq : subscribeRequest c s topicFilters = (none, s1))
    (hslot : s2.subscriptionAck = s1.subscriptionAck)
    (hfb : firstByte >>> 4 = subAck)
    (hdel : (c.Persistence.Delete subscriptionPacketID s2.ext).1 = none)
    (hlen : codes.length = topicFilters.length)
    (hcodes : ∀ x ∈ codes, x ∈ [0, 1, 2, 0x80]) :
    (inbound c s2 firstByte ([0, 1] ++ codes)).2.trace
        = s2.trace ++ [.delete subscriptionPacketID] ++ codes.map Event.ackSend ++ [.ackClose]
      ∧ subscribeAwait topicFilters.length codes
        = if 0x80 ∈ codes then
            .returned (some (.subscribeFailures
              ((List.range codes.length).filter fun i => codes[i]? = some 0x80)))
          else .returned none := by
  obtain ⟨hack, hn⟩ := subscribeRequest_waiting c s s1 topicFilters hreq
  constructor
  · have hl : ¬ ([0, 1] ++ codes).length < 3 := by
      simp only [List.length_append, List.length_cons, List.length_nil]
      omega
    have hid : uint16BE ([0, 1] ++ codes) = subscriptionPacketID := by
      simp [uint16BE, subscriptionPacketID]
    simp only [inbound, hfb, subAck, pubMsg, pubRelease, pubAck, pubReceived, pubComplete]
    simp only [Nat.reduceEqDiff, if_false, if_true]
    rw [if_neg hl, hid]
    simp only [ne_eq, not_true_eq_false, if_false, callDelete]
    cases hd : (c.Persistence.Delete subscriptionPacketID s2.ext) with
    | mk derr e1 =>
      rw [hd] at hdel
      simp only at hdel
      subst hdel
      simp only [hslot, hack]
      have hdrop : List.drop 2 ([0, 1] ++ codes) = codes := rfl
      rw [hdrop, sendCodes_all codes ⟨topicFilters.length, 0⟩ _ (by simp only; omega)]
  · have hc := collectCodes_eq codes 0 [] hcodes
    simp only [subscribeAwait, hc, Nat.zero_add, List.nil_append, Nat.add_zero, List.map_id']
    rw [if_neg (by omega)]
    by_cases h80 : 0x80 ∈ codes
    · rw [if_pos h80, if_pos]
      obtain ⟨j, hj, hjv⟩ := List.mem_iff_getElem.1 h80
      have : j ∈ (List.range codes.length).filter fun i => codes[i]? = some 0x80 := by
        simp [List.mem_filter, hj, hjv]
      intro h0
      rw [List.length_eq_zero] at h0
      rw [h0] at this
      exact absurd this (List.not_mem_nil _)
    · rw [if_neg h80, if_neg]
      simp only [ne_eq, not_not, List.length_eq_zero, List.filter_eq_nil_iff, List.mem_range,
        decide_eq_true_eq]
      intro j hj hjv
      exact h80 (List.getElem?_mem hjv)

/-- Claim C17 fails on the code: `Subscribe` has written its request for three filters
and waits; the SUBACK with the three codes 0, 0x80, 2 arrives and the `Delete` of the
handler fails. `inbound` returns that error after the `Delete`: no code is sent, the
channel is not closed and stays in the slot, so that `Subscribe` does not return. -/
theorem subscribe_suback_delete_fails :
    (subscribeRequest deleteFailsClient (freshState [] []) [[97], [98], [99]]).1 = none
    ∧ (inbound deleteFailsClient
        (subscribeRequest deleteFailsClient (freshState [] []) [[97], [98], [99]]).2
        0x90 [0, 1, 0, 0x80, 2]).1 = .returned (some (.other 1))
    ∧ (inbound deleteFailsClient
        (subscribeRequest deleteFailsClient (freshState [] []) [[97], [98], [99]]).2
        0x90 [0, 1, 0, 0x80, 2]).2.trace
      = [.store 65537 [[0x80, 14, 0, 1, 0, 1, 97, 2, 0, 1, 98, 2, 0, 1, 99, 2]],
          .connWrite [0x80, 14, 0, 1, 0, 1, 97, 2, 0, 1, 98, 2, 0, 1, 99, 2] 16,
          .delete 1]
    ∧ (inbound deleteFailsClient
        (subscribeRequest deleteFailsClient (freshState [] []) [[97], [98], [99]]).2
        0x90 [0, 1, 0, 0x80, 2]).2.subscriptionAck = some ⟨3, 0⟩ := by
  have hp : subscribePacket [[97], [98], [99]] 14
      = [0x80, 14, 0, 1, 0, 1, 97, 2, 0, 1, 98, 2, 0, 1, 99, 2] := by
    simp [subscribePacket, sizeLoop, appendFilters, byte, subReq, ExactlyOnce]
  have hm : measureFilters [[97], [98], [99]] (2 + ([[97], [98], [99]] : List Bytes).length * 3)
      = .ok 14 := by
    simp [measureFilters, stringCheck]
  have hmax : ¬ packetMax < 14 := by decide
  simp only [subscribeRequest, hm, if_neg hmax, hp]
  decide

/-- Claim C17 as amended: when `Subscribe` has written its request for `n ≥ 1` filters
and waits, and a SUBACK with `n` return codes, each 0, 1, 2 or 0x80, arrives: if the
`Delete` of the handler succeeds, `inbound` sends exactly those codes on the channel
and closes it, and on those codes `Subscribe` returns nil if none is 0x80 and else
the error that lists the indices `i` with code 0x80, in ascending order; if the
`Delete` fails, `inbound` returns its error after the `Delete`, sends no code and
leaves the channel in the slot. -/
theorem subscribe_return_codes (c : Client σ) (s s1 s2 : State σ) (topicFilters : List Bytes)
    (codes : List Nat) (firstByte : Nat)
    (hreq : subscribeRequest c s topicFilters = (none, s1))
    (hslot : s2.subscriptionAck = s1.subscriptionAck)
    (hfb : firstByte >>> 4 = subAck)
    (hlen : codes.length = topicFilters.length)
    (hcodes : ∀ x ∈ codes, x ∈ [0, 1, 2, 0x80]) :
    match (c.Persistence.Delete subscriptionPacketID s2.ext).1 with
    | none =>
      (inbound c s2 firstByte ([0, 1] ++ codes)).2.trace
          = s2.trace ++ [.delete subscriptionPacketID] ++ codes.map Event.ackSend ++ [.ackClose]
        ∧ subscribeAwait topicFilters.length codes
          = if 0x80 ∈ codes then
              .returned (some (.subscribeFailures
                ((List.range codes.length).filter fun i => codes[i]? = some 0x80)))
            else .returned none
    | some err =>
      (inbound c s2 firstByte ([0, 1] ++ codes)).1 = .returned (some err)
        ∧ (inbound c s2 firstByte ([0, 1] ++ codes)).2.trace
          = s2.trace ++ [.delete subscriptionPacketID]
        ∧ (inbound c s2 firstByte ([0, 1] ++ codes)).2.subscriptionAck
          = some ⟨topicFilters.length, 0⟩ := by
  cases hdel : (c.Persistence.Delete subscriptionPacketID s2.ext).1 with
  | none =>
    exact subscribe_codes_delivered c s s1 s2 topicFilters codes firstByte hreq hslot hfb hdel
      hlen hcodes
  | some err =>
    obtain ⟨hack, hn⟩ := subscribeRequest_waiting c s s1 topicFilters hreq
    have hl : ¬ ([0, 1] ++ codes).length < 3 := by
      simp only [List.length_append, List.length_cons, List.length_nil]
      omega
    have hid : uint16BE ([0, 1] ++ codes) = subscriptionPacketID := by
      simp [uint16BE, subscriptionPacketID]
    simp only [inbound, hfb, subAck, pubMsg, pubRelease, pubAck, pubReceived, pubComplete]
    simp only [Nat.reduceEqDiff, if_false, if_true]
    rw [if_neg hl, hid]
    simp only [ne_eq, not_true_eq_false, if_false, callDelete, hdel]
    exact ⟨trivial, trivial, by rw [hslot, hack]⟩

/-- Witness for `subscribe_return_codes`: three filters and the codes 0, 0x80, 2, on
a persistence whose `Delete` succeeds. -/
theorem subscribe_return_codes_witness :
    (subscribeRequest (mapClient true) (freshState [] []) [[97], [98], [99]]
        = (none, (subscribeRequest (mapClient true) (freshState [] []) [[97], [98], [99]]).2)
      ∧ (0x90 : Nat) >>> 4 = subAck
      ∧ ([0, 0x80, 2] : List Nat).length = ([[97], [98], [99]] : List Bytes).length
      ∧ ∀ x ∈ ([0, 0x80, 2] : List Nat), x ∈ [0, 1, 2, 0x80])
    ∧ ((mapClient true).Persistence.Delete subscriptionPacketID
          (subscribeRequest (mapClient true) (freshState [] []) [[97], [98], [99]]).2.ext).1 = none
    ∧ subscribeAwait 3 [0, 0x80, 2] = .returned (some (.subscribeFailures [1])) := by
  have hreq : subscribeRequest (mapClient true) (freshState [] []) [[97], [98], [99]]
      = (none, (subscribeRequest (mapClient true) (freshState [] []) [[97], [98], [99]]).2) := by
    simp [subscribeRequest, measureFilters, stringCheck, packetMax, subscribePacket, sizeLoop,
      appendFilters, callStore, write, freshState, writeAttempts, mapClient, mapPersistence]
  have h := subscribe_return_codes (mapClient true) (freshState [] []) _ _ [[97], [98], [99]]
    [0, 0x80, 2] 0x90 hreq rfl (by decide) rfl (by decide)
  have hdel : ((mapClient true).Persistence.Delete subscriptionPacketID
      (subscribeRequest (mapClient true) (freshState [] []) [[97], [98], [99]]).2.ext).1
      = none := rfl
  rw [hdel] at h
  refine ⟨⟨hreq, by decide, rfl, by decide⟩, hdel, ?_⟩
  have h2 := h.2
  simp only [List.length_cons, List.length_nil] at h2
  rw [h2]
  decide

/-- Claim C18 fails on the code: for the filters "a/b" and "c" the packet that
`Subscribe` stores and writes is `0x80, 12, 0, 1, 0, 3, "a/b", 2, 0, 1, "c", 2`: the
first byte is `subReq<<4` = 0x80, without the flag bits 0010 of the 0x82 that the
claim has; the rest is as the claim says. -/
theorem subscribe_packet_head :
    (subscribeRequest (mapClient true) (freshState [] []) [[97, 47, 98], [99]]).1 = none
    ∧ (subscribeRequest (mapClient true) (freshState [] []) [[97, 47, 98], [99]]).2.trace
      = [.store 65537 [[0x80, 12, 0, 1, 0, 3, 97, 47, 98, 2, 0, 1, 99, 2]],
          .connWrite [0x80, 12, 0, 1, 0, 3, 97, 47, 98, 2, 0, 1, 99, 2] 14] := by
  constructor <;>
    simp [subscribeRequest, measureFilters, stringCheck, packetMax, subscribePacket, sizeLoop,
      appendFilters, callStore, write, freshState, writeAttempts, mapClient, mapPersistence,
      byte, subReq, ExactlyOnce, subscriptionPacketID, localPacketIDFlag]

/-! ## The buffers of a publish with QoS 1 or 2 -/

theorem uint16BE_bytes (n : Nat) (h : n ≤ 65535) : uint16BE [byte (n >>> 8), byte n] = n := by
  have h1 : byte (n >>> 8) = n / 256 := by
    simp only [byte, Nat.shiftRight_eq_div_pow]
    omega
  have h2 : byte n < 2 ^ 8 := by
    simp only [byte]
    omega
  simp only [uint16BE, List.getD_cons_zero, List.getD_cons_succ]
  rw [Nat.or_comm, or_shiftLeft_eq_add _ _ 8 h2, h1]
  simp only [byte]
  omega

theorem stringCheck_length (topic : Bytes) (h : stringCheck topic = none) :
    topic.length ≤ 65535 := by
  unfold stringCheck at h
  by_cases hc : 65535 < topic.length ∨ 0 ∈ topic
  · simp [hc] at h
  · omega

theorem persistAndTrySend_first_event (c : Client σ) (s : State σ)
    (packetID : Nat) (packet message : Bytes) :
    ∃ rest, (persistAndTrySend c s packetID packet message).2.trace
        = s.trace ++ Event.store (packetID ||| localPacketIDFlag)
            [packet ++ [byte (packetID >>> 8), byte packetID], message] :: rest := by
  simp only [persistAndTrySend, callStore]
  cases (c.Persistence.Store (packetID ||| localPacketIDFlag)
      [packet ++ [byte (packetID >>> 8), byte packetID], message] s.ext).1 with
  | some err => exact ⟨[], by simp⟩
  | none =>
    simp only
    obtain ⟨rest, ht, _, _⟩ := writeBuffers_trace
      ({ s with ext := (c.Persistence.Store (packetID ||| localPacketIDFlag)
                  [packet ++ [byte (packetID >>> 8), byte packetID], message] s.ext).2,
                trace := s.trace ++ [Event.store (packetID ||| localPacketIDFlag)
                  [packet ++ [byte (packetID >>> 8), byte packetID], message]] } : State σ)
      [packet ++ [byte (packetID >>> 8), byte packetID], message]
    refine ⟨rest, ?_⟩
    revert ht
    generalize writeBuffers _ [packet ++ [byte (packetID >>> 8), byte packetID], message] = r
    obtain ⟨out, s2⟩ := r
    intro ht
    cases out <;> simp_all

/-- Claim C19: for a topic that passes `stringCheck`, a message with
`4 + len(topic) + len(message) ≤ packetMax` and an identifier in `[1, 65535]`, `pubmsg`
succeeds and the two buffers that `persistAndTrySend` stores (and writes) are the
packet start with the identifier, and the message unchanged; they concatenate to the
head byte, the remaining length of `2 + len(topic) + 2 + len(message)`, the 2-byte
big-endian topic length, the topic, the 2-byte big-endian identifier and the message,
and the remaining-length field decodes to the number of bytes that follow it. -/
theorem pubmsg_buffers (c : Client σ) (s : State σ) (topic message : Bytes)
    (head packetID : Nat) (e : Error)
    (htopic : stringCheck topic = none)
    (hsize : 4 + topic.length + message.length ≤ packetMax)
    (hid : 1 ≤ packetID ∧ packetID ≤ 65535) :
    ∃ packet rest,
      pubmsg topic message head = .ok packet
      ∧ (persistAndTrySend c s packetID packet message).2.trace
        = s.trace ++ Event.store (packetID ||| localPacketIDFlag)
            [packet ++ [byte (packetID >>> 8), byte packetID], message] :: rest
      ∧ packet ++ [byte (packetID >>> 8), byte packetID] ++ message
        = [head] ++ appendSize [] (2 + topic.length + 2 + message.length)
          ++ ([byte (topic.length >>> 8), byte topic.length] ++ topic
            ++ [byte (packetID >>> 8), byte packetID] ++ message)
      ∧ uint16BE [byte (topic.length >>> 8), byte topic.length] = topic.length
      ∧ uint16BE [byte (packetID >>> 8), byte packetID] = packetID
      ∧ readRemainingLength (Reader.ofBytes
            (appendSize [] (2 + topic.length + 2 + message.length)
              ++ ([byte (topic.length >>> 8), byte topic.length] ++ topic
                ++ [byte (packetID >>> 8), byte packetID] ++ message)) e)
        = (.ok ([byte (topic.length >>> 8), byte topic.length] ++ topic
              ++ [byte (packetID >>> 8), byte packetID] ++ message).length,
            Reader.ofBytes ([byte (topic.length >>> 8), byte topic.length] ++ topic
              ++ [byte (packetID >>> 8), byte packetID] ++ message) e) := by
  have hpm : ¬ packetMax < 4 + topic.length + message.length := by omega
  obtain ⟨rest, hrest⟩ := persistAndTrySend_first_event c s packetID
    (appendSize [head] (4 + topic.length + message.length)
      ++ [byte (topic.length >>> 8), byte topic.length] ++ topic) message
  refine ⟨_, rest, ?_, hrest, ?_, uint16BE_bytes _ (stringCheck_length topic htopic),
    uint16BE_bytes _ hid.2, ?_⟩
  · simp only [pubmsg, htopic, if_neg hpm]
  · rw [appendSize_append [head]]
    have : 4 + topic.length + message.length = 2 + topic.length + 2 + message.length := by omega
    rw [this]
    simp
  · have hlen : ([byte (topic.length >>> 8), byte topic.length] ++ topic
        ++ [byte (packetID >>> 8), byte packetID] ++ message).length
        = 2 + topic.length + 2 + message.length := by
      simp only [List.length_append, List.length_cons, List.length_nil]
    have hlt : 2 + topic.length + 2 + message.length < 2 ^ (7 * (3 + 1)) := by
      simp only [packetMax] at hsize
      norm_num
      omega
    have := readRemainingLengthLoop_appendSize 3 (2 + topic.length + 2 + message.length) 0 0
      ([byte (topic.length >>> 8), byte topic.length] ++ topic
        ++ [byte (packetID >>> 8), byte packetID] ++ message) e hlt (by norm_num)
    rw [hlen]
    simpa [readRemainingLength] using this

/-- Witness for `pubmsg_buffers`: topic "a/b", message "hi", identifier 1, QoS 1. -/
theorem pubmsg_buffers_witness :
    (stringCheck [97, 47, 98] = none
      ∧ 4 + ([97, 47, 98] : Bytes).length + ([104, 105] : Bytes).length ≤ packetMax
      ∧ (1 ≤ 1 ∧ 1 ≤ 65535))
    ∧ ∃ packet rest,
      pubmsg [97, 47, 98] [104, 105] 0x32 = .ok packet
      ∧ (persistAndTrySend (mapClient true) (freshState [1] []) 1 packet [104, 105]).2.trace
        = (freshState [1] []).trace ++ Event.store (1 ||| localPacketIDFlag)
            [packet ++ [byte (1 >>> 8), byte 1], [104, 105]] :: rest
      ∧ packet ++ [byte (1 >>> 8), byte 1] ++ [104, 105]
        = [0x32] ++ appendSize [] (2 + ([97, 47, 98] : Bytes).length + 2
            + ([104, 105] : Bytes).length)
          ++ ([byte (([97, 47, 98] : Bytes).length >>> 8), byte ([97, 47, 98] : Bytes).length]
            ++ [97, 47, 98] ++ [byte (1 >>> 8), byte 1] ++ [104, 105]) := by
  obtain ⟨packet, rest, h1, h2, h3, _⟩ := pubmsg_buffers (mapClient true) (freshState [1] [])
    [97, 47, 98] [104, 105] 0x32 1 .EOF (by decide) (by decide) (by decide)
  exact ⟨⟨by decide, by decide, by decide⟩, packet, rest, h1, h2, h3⟩

/-! ## Disconnect -/

/-- Claim C20 fails on the code: `Disconnect` on a connection that accepts the write
returns nil after the one write of the DISCONNECT packet `0xe0, 0`, and the connection
in the write slot is not closed (no call of `Close`); the same holds when the first
write attempt fails with an error that is not temporary and the retry succeeds. -/
theorem disconnect_leaves_connection_open :
    (Disconnect (freshState [] [])).1 = .returned none
    ∧ (Disconnect (freshState [] [])).2.trace = [.connWrite [0xe0, 0] 2]
    ∧ (Disconnect (freshState [] [])).2.connSem = some ⟨[], false⟩
    ∧ (Disconnect { freshState [] [] with
          connSem := some ⟨[.fail 1 false 5 false], false⟩ }).1 = .returned none
    ∧ (Disconnect { freshState [] [] with
          connSem := some ⟨[.fail 1 false 5 false], false⟩ }).2.trace
        = [.connWrite [0xe0, 0] 1, .connWrite [0] 1]
    ∧ (Disconnect { freshState [] [] with
          connSem := some ⟨[.fail 1 false 5 false], false⟩ }).2.connSem = some ⟨[], false⟩ := by
  decide

/-! ## Connect -/

theorem connect_connSem (cfg : SessionConfig) (dial : Except Error NetConn) (s : State σ) :
    (connect cfg dial s).2.connSem = s.connSem := by
  unfold connect
  repeat' split
  all_goals rfl

/-- Claim C14 fails on the code: `connect` leaves the write slot `connSem` as it was
on every return, the successful one included. On a client with an empty slot and a
connection that answers the CONNACK `0x20, 2, 0, 0`, `connect` returns the reader
without an error, the slot is still empty, and a following `write` waits instead of
obtaining the connection. -/
theorem connect_leaves_write_slot :
    (∀ (τ : Type) (cfg : SessionConfig) (dial : Except Error NetConn) (s : State τ),
        (connect cfg dial s).2.connSem = s.connSem)
    ∧ (connect ⟨[99], [], none, none, true, 60⟩
          (.ok ⟨⟨[], false⟩, Reader.ofBytes [0x20, 2, 0, 0] .EOF⟩)
          { freshState [] [] with connSem := none }).1 = .ok (Reader.ofBytes [] .EOF)
    ∧ (connect ⟨[99], [], none, none, true, 60⟩
          (.ok ⟨⟨[], false⟩, Reader.ofBytes [0x20, 2, 0, 0] .EOF⟩)
          { freshState [] [] with connSem := none }).2.connSem = none
    ∧ (write (connect ⟨[99], [], none, none, true, 60⟩
          (.ok ⟨⟨[], false⟩, Reader.ofBytes [0x20, 2, 0, 0] .EOF⟩)
          { freshState [] [] with connSem := none }).2 [0xc0, 0]).1 = .blocked := by
  refine ⟨fun τ cfg dial s => connect_connSem cfg dial s, ?_, ?_, ?_⟩
  · simp [connect, connectPacket, connectSize, connectFlags, sizeLoop, stringCheck, connectWill,
      connectUserName, connectPassword, ReadByte, Reader.ofBytes, connAck, accepted, State.log,
      freshState]
  · rw [connect_connSem]
  · simp only [write, connect_connSem]

/-- Claim C15 fails on the code: for the client identifier "c", a clean session and
keep-alive 60, `connect` writes `9, 0, 4, "MQTT", 4, 2, 0, 1, "c"`: the type byte 0x10
is cut off with the buffer, the keep-alive bytes are not written and the remaining
length counts 9 for the 11 bytes that follow; with will, user name and password it
writes `21, 0, 4, "MQTT", 4, 0xee, 0, 1, "c", 0, 1, "t", 0, 1, "m", 0, 1, "u", 0, 1, "p"`. -/
theorem connect_packet_bytes :
    connectPacket ⟨[99], [], none, none, true, 60⟩
      = .ok [9, 0, 4, 77, 81, 84, 84, 4, 2, 0, 1, 99]
    ∧ (connect ⟨[99], [], none, none, true, 60⟩
          (.ok ⟨⟨[], false⟩, Reader.ofBytes [0x20, 2, 0, 0] .EOF⟩) (freshState [] [])).2.trace
      = [.connWrite [9, 0, 4, 77, 81, 84, 84, 4, 2, 0, 1, 99] 12]
    ∧ connectPacket ⟨[99], [117], some [112], some ⟨[116], [109], true, 1⟩, true, 60⟩
      = .ok [21, 0, 4, 77, 81, 84, 84, 4, 0xee, 0, 1, 99, 0, 1, 116, 0, 1, 109,
          0, 1, 117, 0, 1, 112] := by
  refine ⟨?_, ?_, ?_⟩ <;>
    simp [connect, connectPacket, connectSize, connectFlags, sizeLoop, stringCheck, connectWill,
      connectUserName, connectPassword, ReadByte, Reader.ofBytes, connAck, accepted, State.log,
      freshState, byte, connReq]

/-! ## The read routine after a connect -/

/-- A temporary error that `Peek` reports is taken from the stream. -/
theorem Peek_temporary_length (bufSize n : Nat) (r r1 : Reader) (p : Bytes)
    (h : Peek bufSize r n = (p, some .temporary, r1)) :
    r1.items.length < r.items.length := by
  unfold Peek at h
  by_cases hb : bufSize < n
  · simp [hb] at h
  · rw [if_neg hb] at h
    simp only at h
    by_cases hp : (frontBytes n r.items).length = n
    · simp [hp] at h
    · rw [if_neg hp] at h
      split at h
      · rename_i rest hd
        simp only [Prod.mk.injEq, true_and] at h
        rw [← h.2]
        have hlen := congrArg List.length hd
        simp only [List.length_drop, List.length_cons] at hlen
        simp only [List.length_append, List.length_take]
        omega
      · simp at h

/-- The loop of `peekOrReadN` ends within one call of `Peek` more than the stream
has items: more fuel gives the same result. -/
theorem peekOrReadNLoop_fuel (bufSize n : Nat) :
    ∀ (f1 f2 : Nat) (r : Reader), r.items.length < f1 → r.items.length < f2 →
      peekOrReadNLoop bufSize n f1 r = peekOrReadNLoop bufSize n f2 r := by
  intro f1
  induction f1 with
  | zero => intro f2 r h1; omega
  | succ k ih =>
    intro f2 r h1 h2
    cases f2 with
    | zero => omega
    | succ m =>
      simp only [peekOrReadNLoop]
      rcases hpk : Peek bufSize r n with ⟨p, err, r1⟩
      cases err with
      | none => rfl
      | some e =>
        cases e with
        | temporary =>
          have hlt := Peek_temporary_length bufSize n r r1 p hpk
          exact ih m r1 (by omega) (by omega)
        | ErrBufferFull => rfl
        | fatal err => rfl

theorem readByteItems_length (endErr : Error) (items : List ReadItem) :
    (readByteItems endErr items).2.items.length ≤ items.length
      ∧ ∀ b, (readByteItems endErr items).1 = .ok b →
          (readByteItems endErr items).2.items.length < items.length := by
  induction items with
  | nil => simp [readByteItems]
  | cons item rest ih =>
    cases item with
    | data b => simp [readByteItems]
    | temporary =>
      simp only [readByteItems, List.length_cons]
      exact ⟨by omega, fun b hb => by have := ih.2 b hb; omega⟩

theorem readRemainingLengthLoop_length (fuel : Nat) :
    ∀ (l shift : Nat) (r : Reader),
      (readRemainingLengthLoop fuel l shift r).2.items.length ≤ r.items.length := by
  induction fuel with
  | zero => intro l shift r; simp [readRemainingLengthLoop]
  | succ k ih =>
    intro l shift r
    have hb := (readByteItems_length r.endErr r.items).1
    simp only [readRemainingLengthLoop, readByte]
    rcases hr : readByteItems r.endErr r.items with ⟨res, r1⟩
    rw [hr] at hb
    cases res with
    | error err => exact hb
    | ok b =>
      simp only
      split
      · exact hb
      · exact Nat.le_trans (ih _ _ r1) hb

theorem discardItems_length (endErr : Error) (n : Nat) :
    ∀ items : List ReadItem, (discardItems endErr n items).2.items.length ≤ items.length := by
  induction n with
  | zero => intro items; simp [discardItems]
  | succ k ih =>
    intro items
    cases items with
    | nil => simp [discardItems]
    | cons item rest =>
      cases item with
      | data b =>
        simp only [discardItems, List.length_cons]
        exact Nat.le_succ_of_le (ih rest)
      | temporary => simp [discardItems]

theorem Peek_length (bufSize n : Nat) (r : Reader) :
    (Peek bufSize r n).2.2.items.length ≤ r.items.length := by
  unfold Peek
  split
  · exact Nat.le_refl _
  · simp only
    split
    · exact Nat.le_refl _
    · split
      · rename_i rest hd
        have hlen := congrArg List.length hd
        simp only [List.length_drop, List.length_cons] at hlen
        simp only [List.length_append, List.length_take]
        omega
      · exact Nat.le_refl _

theorem readNLoop_length (endErr : Error) (n : Nat) (items : List ReadItem) :
    ∀ (p : Bytes) (err : Option ReadErr),
      (readNLoop endErr n items p err).2.2.items.length ≤ items.length := by
  induction items with
  | nil =>
    intro p err
    simp only [readNLoop]
    repeat' split
    all_goals exact Nat.le_refl _
  | cons item rest ih =>
    intro p err
    simp only [readNLoop]
    split
    · split
      · exact Nat.le_refl _
      · exact Nat.le_refl _
      · split
        · exact Nat.le_succ_of_le (ih _ _)
        · exact Nat.le_succ_of_le (ih _ _)
    · exact Nat.le_refl _

theorem peekOrReadNLoop_length (bufSize n : Nat) (fuel : Nat) :
    ∀ r : Reader, (peekOrReadNLoop bufSize n fuel r).2.2.2.items.length ≤ r.items.length := by
  induction fuel with
  | zero => intro r; simp [peekOrReadNLoop]
  | succ k ih =>
    intro r
    have hp := Peek_length bufSize n r
    simp only [peekOrReadNLoop]
    rcases hpk : Peek bufSize r n with ⟨p, err, r1⟩
    rw [hpk] at hp
    cases err with
    | none => exact hp
    | some e =>
      cases e with
      | temporary => exact Nat.le_trans (ih r1) hp
      | ErrBufferFull => exact Nat.le_trans (readNLoop_length r1.endErr n r1.items [] none) hp
      | fatal err => exact hp

/-- A call of `nextPacket` that returns nil has taken at least one item from the
stream. -/
theorem nextPacket_length (c : Client σ) (bufSize : Nat) (s s1 : State σ) (r r1 : Reader)
    (h : nextPacket c bufSize s r = (.returned none, s1, r1)) :
    r1.items.length < r.items.length := by
  unfold nextPacket at h
  have hb := readByteItems_length r.endErr r.items
  simp only [readByte] at h
  rcases hr : readByteItems r.endErr r.items with ⟨res, ra⟩
  rw [hr] at h hb
  cases res with
  | error err => simp at h
  | ok firstByte =>
    have hlt : ra.items.length < r.items.length := hb.2 firstByte rfl
    simp only at h
    have hl := readRemainingLengthLoop_length 4 0 0 ra
    simp only [readRemainingLength] at h
    rcases hrl : readRemainingLengthLoop 4 0 0 ra with ⟨res2, rb⟩
    rw [hrl] at h hl
    cases res2 with
    | error err => simp at h
    | ok l =>
      simp only at h
      by_cases hlim : c.InSizeLimit < l
      · rw [if_pos hlim] at h
        have hd := discardItems_length rb.endErr l rb.items
        simp only [Discard] at h
        rcases hdi : discardItems rb.endErr l rb.items with ⟨derr, rc⟩
        rw [hdi] at h hd
        cases derr with
        | none =>
          simp only [Prod.mk.injEq, true_and] at h
          rw [← h.2]
          simp only at hd hl
          omega
        | some e => simp at h
      · rw [if_neg hlim] at h
        have hp := peekOrReadNLoop_length bufSize l (rb.items.length + 1) rb
        simp only [peekOrReadN] at h
        rcases hpo : peekOrReadNLoop bufSize l (rb.items.length + 1) rb with ⟨p, didPeek, perr, rc⟩
        rw [hpo] at h hp
        simp only at h hp hl
        rcases hin : inbound c s firstByte p with ⟨out, s2⟩
        rw [hin] at h
        cases out with
        | returned err =>
          cases err with
          | none =>
            simp only [Prod.mk.injEq, true_and] at h
            rw [← h.2]
            cases didPeek with
            | true =>
              have hd := discardItems_length rc.endErr p.length rc.items
              simp only [Discard, if_true]
              omega
            | false =>
              simp only [Bool.false_eq_true, if_false]
              omega
          | some e => simp at h
        | panicked => simp at h
        | blocked => simp at h

/-- The packet loop ends within one call of `nextPacket` more than the stream has
items: more fuel gives the same result. -/
theorem packetLoop_fuel (c : Client σ) (bufSize : Nat) :
    ∀ (f1 f2 : Nat) (s : State σ) (r : Reader), r.items.length < f1 → r.items.length < f2 →
      packetLoop c bufSize f1 s r = packetLoop c bufSize f2 s r := by
  intro f1
  induction f1 with
  | zero => intro f2 s r h1; omega
  | succ k ih =>
    intro f2 s r h1 h2
    cases f2 with
    | zero => omega
    | succ m =>
      simp only [packetLoop]
      rcases hnp : nextPacket c bufSize s r with ⟨out, s1, r1⟩
      cases out with
      | returned err =>
        cases err with
        | none =>
          have hlt := nextPacket_length c bufSize s s1 r r1 hnp
          exact ih m s1 r1 (by omega) (by omega)
        | some e => rfl
      | panicked => rfl
      | blocked => rfl

/-- Claim C16 fails on the code: the QoS-1 PUBLISH of identifier 1 is stored under
key 65537 by `persistAndTrySend`, whose write fails; the read routine then connects
(CONNACK `0x20, 2, 0, 0`), handles a PINGRESP and meets the end of the stream. All it
writes to the new connection is the packet of `connect`; the record under key 65537 is
neither loaded nor written again and is still in the store; the packet loop ends on
the `io.EOF` of the stream. -/
theorem read_routine_no_replay :
    (persistAndTrySend (mapClient true)
        { freshState [1] [] with connSem := some ⟨[.fail 0 true 7 false], false⟩ } 1
        [0x32, 9, 0, 3, 97, 47, 98] [104, 105]).1 = .returned none
    ∧ (readRoutine (mapClient true) ⟨[99], [], none, none, false, 60⟩
        [.ok ⟨⟨[], false⟩, Reader.ofBytes [0x20, 2, 0, 0, 0xd0, 0] .EOF⟩]
        (persistAndTrySend (mapClient true)
          { freshState [1] [] with connSem := some ⟨[.fail 0 true 7 false], false⟩ } 1
          [0x32, 9, 0, 3, 97, 47, 98] [104, 105]).2).2.trace
      = [.store 65537 [[0x32, 9, 0, 3, 97, 47, 98, 0, 1], [104, 105]],
          .connWrite [0x32, 9, 0, 3, 97, 47, 98, 0, 1, 104, 105] 0, .connClose,
          .connWrite [9, 0, 4, 77, 81, 84, 84, 4, 0, 0, 1, 99] 12]
    ∧ (readRoutine (mapClient true) ⟨[99], [], none, none, false, 60⟩
        [.ok ⟨⟨[], false⟩, Reader.ofBytes [0x20, 2, 0, 0, 0xd0, 0] .EOF⟩]
        (persistAndTrySend (mapClient true)
          { freshState [1] [] with connSem := some ⟨[.fail 0 true 7 false], false⟩ } 1
          [0x32, 9, 0, 3, 97, 47, 98] [104, 105]).2).2.ext
      = [(65537, [0x32, 9, 0, 3, 97, 47, 98, 0, 1, 104, 105])]
    ∧ (packetLoop (mapClient true) 64 3 (freshState [1] [])
        (Reader.ofBytes [0xd0, 0] .EOF)).1 = .returned (some .EOF) := by
  have hc : connectPacket ⟨[99], [], none, none, false, 60⟩
      = .ok [9, 0, 4, 77, 81, 84, 84, 4, 0, 0, 1, 99] := by
    simp [connectPacket, connectSize, connectFlags, sizeLoop, stringCheck, connectWill,
      connectUserName, connectPassword, byte, connReq]
  refine ⟨by decide, ?_, ?_, by decide⟩
  · simp only [readRoutine, connect, hc]
    decide
  · simp only [readRoutine, connect, hc]
    decide

/-! ## Oversized packets and the remaining-length errors -/

theorem discardItems_body (endErr : Error) (body : Bytes) (rest : List ReadItem) :
    discardItems endErr body.length (body.map ReadItem.data ++ rest) = (none, ⟨rest, endErr⟩) := by
  induction body with
  | nil => simp [discardItems]
  | cons b body ih => simpa [discardItems] using ih

/-- Claim C21: when the packet read declares a remaining length `l` above `InSizeLimit`
and the stream goes on with `l` body bytes, `nextPacket` returns nil, leaves the
whole state as it was (no call of `Receive` or of the persistence, no write), and
leaves the reader at the item after the `l` body bytes. -/
theorem nextPacket_oversize (c : Client σ) (bufSize : Nat) (s : State σ) (r r1 r2 : Reader)
    (firstByte l : Nat) (body : Bytes) (rest : List ReadItem)
    (hb : readByte r = (.ok firstByte, r1))
    (hl : readRemainingLength r1 = (.ok l, r2))
    (hlim : c.InSizeLimit < l)
    (hbody : r2.items = body.map ReadItem.data ++ rest)
    (hlen : body.length = l) :
    nextPacket c bufSize s r = (.returned none, s, ⟨rest, r2.endErr⟩) := by
  simp only [nextPacket, hb, hl, if_pos hlim, Discard, hbody]
  rw [← hlen, discardItems_body]

/-- Witness for `nextPacket_oversize`: limit 2, a PUBLISH with 3 body bytes, then a
PINGRESP. -/
theorem nextPacket_oversize_witness :
    (readByte (Reader.ofBytes [0x30, 3, 1, 2, 3, 0xd0, 0] .EOF)
        = (.ok 0x30, Reader.ofBytes [3, 1, 2, 3, 0xd0, 0] .EOF)
      ∧ readRemainingLength (Reader.ofBytes [3, 1, 2, 3, 0xd0, 0] .EOF)
        = (.ok 3, Reader.ofBytes [1, 2, 3, 0xd0, 0] .EOF)
      ∧ ({ mapClient true with InSizeLimit := 2 } : Client _).InSizeLimit < 3
      ∧ (Reader.ofBytes [1, 2, 3, 0xd0, 0] .EOF).items
        = ([1, 2, 3] : Bytes).map ReadItem.data ++ [.data 0xd0, .data 0]
      ∧ ([1, 2, 3] : Bytes).length = 3)
    ∧ nextPacket { mapClient true with InSizeLimit := 2 } 64 (freshState [] [])
        (Reader.ofBytes [0x30, 3, 1, 2, 3, 0xd0, 0] .EOF)
      = (.returned none, freshState [] [], ⟨[.data 0xd0, .data 0], .EOF⟩) :=
  ⟨⟨rfl, rfl, by decide, rfl, rfl⟩,
    nextPacket_oversize { mapClient true with InSizeLimit := 2 } 64 (freshState [] [])
      (Reader.ofBytes [0x30, 3, 1, 2, 3, 0xd0, 0] .EOF)
      (Reader.ofBytes [3, 1, 2, 3, 0xd0, 0] .EOF) (Reader.ofBytes [1, 2, 3, 0xd0, 0] .EOF)
      0x30 3 [1, 2, 3] [.data 0xd0, .data 0] rfl rfl (by decide) rfl rfl⟩

/-- Claim C22: on a stream that starts with four bytes that all have the continuation
bit set, `readRemainingLength` returns an error that wraps `errProtoReset` and has
read exactly those four bytes; on a stream that ends after fewer than four bytes,
all with the continuation bit set, it returns the end error of the stream through
`unexpectEOF`, which is `io.ErrUnexpectedEOF` for `io.EOF`. -/
theorem readRemainingLength_errors (bs : Bytes) (hall : ∀ b ∈ bs, 0x80 ≤ b) :
    (bs.length = 4 → ∀ (rest : List ReadItem) (e : Error),
        readRemainingLength ⟨bs.map ReadItem.data ++ rest, e⟩
          = (.error .errProtoReset, ⟨rest, e⟩))
    ∧ Error.isProtoReset .errProtoReset = true
    ∧ (bs.length < 4 → ∀ e : Error,
        readRemainingLength ⟨bs.map ReadItem.data, e⟩ = (.error (unexpectEOF e), ⟨[], e⟩))
    ∧ unexpectEOF .EOF = .ErrUnexpectedEOF := by
  have hstep : ∀ (k l shift b : Nat) (items : List ReadItem) (e : Error), 0x80 ≤ b →
      readRemainingLengthLoop (k + 1) l shift ⟨.data b :: items, e⟩
        = readRemainingLengthLoop k (l ||| ((b &&& 127) <<< shift)) (shift + 7) ⟨items, e⟩ := by
    intro k l shift b items e hb
    simp only [readRemainingLengthLoop, readByte, readByteItems]
    rw [if_neg (by omega)]
  have hend : ∀ (k l shift : Nat) (e : Error),
      readRemainingLengthLoop (k + 1) l shift ⟨[], e⟩ = (.error (unexpectEOF e), ⟨[], e⟩) := by
    intro k l shift e
    simp only [readRemainingLengthLoop, readByte, readByteItems]
  refine ⟨?_, rfl, ?_, rfl⟩
  · intro h4 rest e
    match bs, h4, hall with
    | [b0, b1, b2, b3], _, hall =>
      have h0 := hall b0 (by simp)
      have h1 := hall b1 (by simp)
      have h2 := hall b2 (by simp)
      have h3 := hall b3 (by simp)
      simp only [readRemainingLength, List.map, List.cons_append, List.nil_append]
      rw [hstep _ _ _ _ _ _ h0, hstep _ _ _ _ _ _ h1, hstep _ _ _ _ _ _ h2,
        hstep _ _ _ _ _ _ h3]
      rfl
  · intro hlt e
    match bs, hlt, hall with
    | [], _, _ => exact hend 3 0 0 e
    | [b0], _, hall =>
      have h0 := hall b0 (by simp)
      simp only [readRemainingLength, List.map]
      rw [hstep _ _ _ _ _ _ h0, hend]
    | [b0, b1], _, hall =>
      have h0 := hall b0 (by simp)
      have h1 := hall b1 (by simp)
      simp only [readRemainingLength, List.map]
      rw [hstep _ _ _ _ _ _ h0, hstep _ _ _ _ _ _ h1, hend]
    | [b0, b1, b2], _, hall =>
      have h0 := hall b0 (by simp)
      have h1 := hall b1 (by simp)
      have h2 := hall b2 (by simp)
      simp only [readRemainingLength, List.map]
      rw [hstep _ _ _ _ _ _ h0, hstep _ _ _ _ _ _ h1, hstep _ _ _ _ _ _ h2, hend]
    | _ :: _ :: _ :: _ :: _, hlt, _ => simp at hlt; omega

/-- Witness for `readRemainingLength_errors`: the bytes `0xff, 0xff, 0xff, 0xff`. -/
theorem readRemainingLength_errors_witness :
    (∀ b ∈ ([0xff, 0xff, 0xff, 0xff] : Bytes), 0x80 ≤ b)
    ∧ readRemainingLength ⟨([0xff, 0xff, 0xff, 0xff] : Bytes).map ReadItem.data ++ [.data 1], .EOF⟩
      = (.error .errProtoReset, ⟨[.data 1], .EOF⟩) :=
  ⟨by decide,
    (readRemainingLength_errors [0xff, 0xff, 0xff, 0xff] (by decide)).1 rfl [.data 1] .EOF⟩

/-! ## The retry of `writeBuffers` -/

/-- The `todo` loop alone builds, from a list and a count, the list with that many
bytes dropped from the front. -/
theorem todoBuffers_flatten (buffers : List Bytes) :
    ∀ n : Nat, (todoBuffers buffers n).flatten = buffers.flatten.drop n := by
  induction buffers with
  | nil => intro n; simp [todoBuffers]
  | cons b rest ih =>
    intro n
    simp only [todoBuffers, List.flatten_cons]
    by_cases h : b.length ≤ n
    · rw [if_pos h, ih, List.drop_append_eq_append_drop, List.drop_of_length_le h]
      simp
    · rw [if_neg h, List.flatten_cons, List.drop_append_of_le_length (by omega)]

/-- What `WriteTo` leaves in its receiver is the list with the accepted bytes dropped. -/
theorem consume_flatten (buffers : List Bytes) :
    ∀ n : Nat, (consume buffers n).flatten = buffers.flatten.drop n := by
  induction buffers with
  | nil => intro n; simp [consume]
  | cons b rest ih =>
    intro n
    simp only [consume, List.flatten_cons]
    by_cases h : n < b.length
    · rw [if_pos h, List.flatten_cons, List.drop_append_of_le_length (by omega)]
    · have hle : b.length ≤ n := by omega
      rw [if_neg h, ih, List.drop_append_eq_append_drop, List.drop_of_length_le hle]
      simp

/-- Claim C23 fails on the code: `buffers.WriteTo(conn)` has already taken the `n`
accepted bytes from `buffers` when the `todo` loop drops `n` bytes once more, so the
list for the retry concatenates to the original concatenation with `n + n` bytes
dropped. For the buffers `{1, 2, 3}, {4, 5}` and a first `WriteTo` that accepts one
byte and fails with an error that is not temporary, the retry writes `3, 4, 5`: the
byte 2 is never written, and `writeBuffers` returns nil. -/
theorem writeBuffers_retry_skips :
    (∀ (buffers : List Bytes) (n : Nat),
        (todoBuffers (consume buffers n) n).flatten = buffers.flatten.drop (n + n))
    ∧ (writeBuffers { freshState [] [] with connSem := some ⟨[.fail 1 false 5 false], false⟩ }
        [[1, 2, 3], [4, 5]]).1 = .returned none
    ∧ (writeBuffers { freshState [] [] with connSem := some ⟨[.fail 1 false 5 false], false⟩ }
        [[1, 2, 3], [4, 5]]).2.trace
      = [.connWrite [1, 2, 3, 4, 5] 1, .connWrite [3, 4, 5] 3]
    ∧ ([1, 2, 3, 4, 5] : Bytes).drop 1 = [2, 3, 4, 5] := by
  refine ⟨?_, by decide, by decide, by decide⟩
  intro buffers n
  rw [todoBuffers_flatten, consume_flatten, List.drop_drop]

/-! ## Malformed and short packets -/

/-- Claim C24 fails on the code: `inbound` panics on a PUBLISH with an empty payload
(`p[0]`), with a one-byte payload (`p[1]`), with a declared topic length of 0 or 1
(`p[2:i]` with `i < 2`), and with a payload that ends before the two bytes at `p[i]`
and `p[i+1]`; no call is made before the panic. -/
theorem inbound_publish_panics :
    (inbound (mapClient true) (freshState [] []) 0x30 []).1 = .panicked
    ∧ (inbound (mapClient true) (freshState [] []) 0x30 [0]).1 = .panicked
    ∧ (inbound (mapClient true) (freshState [] []) 0x30 [0, 0, 104, 105]).1 = .panicked
    ∧ (inbound (mapClient true) (freshState [] []) 0x32 [0, 1, 97, 0, 1, 104]).1 = .panicked
    ∧ (inbound (mapClient true) (freshState [] []) 0x30 [0, 5, 97, 47, 98]).1 = .panicked
    ∧ (inbound (mapClient true) (freshState [] []) 0x30 [0, 3, 97, 47]).1 = .panicked
    ∧ (inbound (mapClient true) (freshState [] []) 0x30 []).2.trace = [] := by
  decide

/-- Claim C25 fails on the code: on a stream with the head of a QoS-0 PUBLISH that
declares 13 body bytes and ends after 7 of them, `peekOrReadN` gives the 7 bytes
with the error `io.EOF`, and `nextPacket` passes the 7 bytes to `inbound`, which
invokes `Receive`, and returns nil with the 7 bytes still on the stream; on a PUBACK
with one body byte of two it returns the error of `inbound`, not the read error. -/
theorem nextPacket_short_body :
    peekOrReadN 64 (Reader.ofBytes [0, 3, 97, 47, 98, 104, 105] .EOF) 13
      = ([0, 3, 97, 47, 98, 104, 105], false, some (.fatal .EOF),
          Reader.ofBytes [0, 3, 97, 47, 98, 104, 105] .EOF)
    ∧ (nextPacket (mapClient true) 64 (freshState [] [])
        (Reader.ofBytes [0x30, 13, 0, 3, 97, 47, 98, 104, 105] .EOF)).1 = .returned none
    ∧ (nextPacket (mapClient true) 64 (freshState [] [])
        (Reader.ofBytes [0x30, 13, 0, 3, 97, 47, 98, 104, 105] .EOF)).2.1.trace
      = [.receive [97] [104, 105]]
    ∧ (nextPacket (mapClient true) 64 (freshState [] [])
        (Reader.ofBytes [0x30, 13, 0, 3, 97, 47, 98, 104, 105] .EOF)).2.2
      = Reader.ofBytes [0, 3, 97, 47, 98, 104, 105] .EOF
    ∧ (nextPacket (mapClient true) 64 (freshState [1] [])
        (Reader.ofBytes [0x40, 2, 0] .EOF)).1 = .returned (some .errProtoReset)
    ∧ (nextPacket (mapClient true) 64 (freshState [1] [])
        (Reader.ofBytes [0x40, 2, 0] .EOF)).2.1.atLeastOnceLine = [1] := by
  decide

end Mqtt
